import Mathlib

/-!
Verification development for the audit-log retrieval pipeline of the
DPoD MCP server (file src/dpod_mcp_server/tools/audit/audit_tools.py and
the service resolver in src/dpod_mcp_server/tools/services/service_tools.py).

The Python code is shallowly embedded: Python values flowing through the
pipeline are modelled by the mutual inductive family PyVal / PyList / PyDict;
Python exceptions are modelled by Except String (the string is the payload of
str(e)); the per-line outcome of json.loads on the downloaded file is
abstracted into the SrcLine type (blank line, malformed line, or a parsed
value).  Python dicts are modelled as insertion-ordered association
structures, which is faithful to CPython dict semantics.  Python tuples are
conflated with lists (the only tuples ever built by the embedded code are the
(action, details) pairs of most_common_actions, and JSON input never produces
tuples).  JSON numbers are modelled as integers; no claim involves floating
point.
-/

/-- Single quote character, used when rendering Python KeyError payloads. -/
def sqc : String := String.singleton (Char.ofNat 39)

mutual
/-- Model of a dynamic Python value as it appears in the pipeline. -/
inductive PyVal where
  | str (s : String)
  | int (n : Int)
  | bool (b : Bool)
  | none
  | list (xs : PyList)
  | dict (fs : PyDict)
/-- Model of a Python list value. -/
inductive PyList where
  | nil
  | cons (v : PyVal) (tl : PyList)
/-- Model of a Python dict: insertion-ordered key/value entries. -/
inductive PyDict where
  | nil
  | cons (k : PyVal) (v : PyVal) (tl : PyDict)
end

namespace PyList

def toList : PyList → List PyVal
  | .nil => []
  | .cons v tl => v :: toList tl

def ofList : List PyVal → PyList
  | [] => .nil
  | v :: tl => .cons v (ofList tl)

def length : PyList → Nat
  | .nil => 0
  | .cons _ tl => length tl + 1

end PyList

namespace PyDict

def entries : PyDict → List (PyVal × PyVal)
  | .nil => []
  | .cons k v tl => (k, v) :: entries tl

def ofEntries : List (PyVal × PyVal) → PyDict
  | [] => .nil
  | (k, v) :: tl => .cons k v (ofEntries tl)

def length : PyDict → Nat
  | .nil => 0
  | .cons _ _ tl => length tl + 1

end PyDict

/-- Python truthiness (bool(v)) for the modelled value types. -/
def pyTruthy : PyVal → Bool
  | .str s => s ≠ ""
  | .int n => n ≠ 0
  | .bool b => b
  | .none => false
  | .list .nil => false
  | .list (.cons _ _) => true
  | .dict .nil => false
  | .dict (.cons _ _ _) => true

/-- Whether a Python value is hashable (usable as a dict key).  Lists and
dicts raise TypeError when hashed. -/
def isHashable : PyVal → Bool
  | .list _ => false
  | .dict _ => false
  | _ => true

/-- Python equality between hashable (atomic) values, as used for dict key
lookup.  True and 1 compare equal in Python, so bools coerce to ints for
numeric comparison.  Container operands never compare equal here: containers
cannot occur as dict keys in Python (they are unhashable). -/
def pyEqKey : PyVal → PyVal → Bool
  | .str s, .str t => s == t
  | .int n, .int m => n == m
  | .int n, .bool b => n == (if b then 1 else 0)
  | .bool b, .int m => (if b then (1 : Int) else 0) == m
  | .bool b, .bool c => b == c
  | .none, .none => true
  | _, _ => false

/-- Lexicographic comparison of character lists by code point, the semantics
of Python string comparison. -/
def strLtB : List Char → List Char → Bool
  | [], [] => false
  | [], _ :: _ => true
  | _ :: _, [] => false
  | c :: cs, d :: ds =>
    if c.toNat < d.toNat then true
    else if d.toNat < c.toNat then false
    else strLtB cs ds

/-- Python comparison v < w, defined for str/str and numeric pairs; any other
pair raises TypeError. -/
def pyLt : PyVal → PyVal → Except String Bool
  | .str s, .str t => .ok (strLtB s.data t.data)
  | .int n, .int m => .ok (decide (n < m))
  | .int n, .bool b => .ok (decide (n < (if b then 1 else 0)))
  | .bool b, .int m => .ok (decide ((if b then (1 : Int) else 0) < m))
  | .bool b, .bool c => .ok (decide ((if b then (1 : Int) else 0) < (if c then 1 else 0)))
  | _, _ => .error "TypeError: unsupported comparison"

/-- Lookup of a string key in a modelled dict (d.get(k) for a str key).
Non-string keys of the dict never equal a string probe. -/
def PyDict.get? : PyDict → String → Option PyVal
  | .nil, _ => Option.none
  | .cons k v tl, key =>
    match k with
    | .str s => if s == key then some v else PyDict.get? tl key
    | _ => PyDict.get? tl key

/-- d.get(key, default) for a string key. -/
def PyDict.getD (d : PyDict) (key : String) (dflt : PyVal) : PyVal :=
  match d.get? key with
  | some v => v
  | Option.none => dflt

/-- Membership of a string key in a dict (the expression (key in d)). -/
def PyDict.hasKey (d : PyDict) (key : String) : Bool :=
  match d.get? key with
  | some _ => true
  | Option.none => false

/-- Lookup of an arbitrary hashable key in a modelled dict.  An unhashable
probe raises TypeError (modelled by the caller checking isHashable first). -/
def PyDict.getV? : PyDict → PyVal → Option PyVal
  | .nil, _ => Option.none
  | .cons k v tl, key => if pyEqKey key k then some v else PyDict.getV? tl key

/-- List of character digits (most significant first) of a natural number;
fuel-based so that the kernel can evaluate it. -/
def natDigitsAux : Nat → Nat → List Char
  | 0, _ => []
  | fuel + 1, n =>
    if n = 0 then []
    else natDigitsAux fuel (n / 10) ++ [Char.ofNat (48 + n % 10)]

/-- Decimal rendering of a natural number (str(n) for n a nonnegative int). -/
def natToDigits (n : Nat) : List Char :=
  if n = 0 then ['0'] else natDigitsAux n n

/-- Value of a big-endian list of decimal digit characters. -/
def digitsVal (cs : List Char) : Nat :=
  cs.foldl (fun n c => n * 10 + (c.toNat - 48)) 0

/-- Python zero-padded integer formatting: the f-string piece {v:0wd}.
The sign counts toward the width and the zeros go after the sign. -/
def pyFormat0 (w : Nat) (v : Int) : List Char :=
  let sign : List Char := if v < 0 then ['-'] else []
  let ds := natToDigits v.natAbs
  sign ++ List.replicate (w - (ds.length + sign.length)) '0' ++ ds

/-- Insert comma thousand separators into a big-endian digit list, as Python
f-string formatting {n:,} does. -/
def commaGroup (cs : List Char) : List Char :=
  let g := fun (c : Char) (acc : List Char × Nat) =>
    if acc.2 % 3 = 0 ∧ acc.2 ≠ 0 then (c :: ',' :: acc.1, acc.2 + 1)
    else (c :: acc.1, acc.2 + 1)
  (cs.foldr g ([], 0)).1

/-- Python {v:,} formatting of a modelled value: ints and bools format,
strings raise ValueError, other types raise TypeError. -/
def pyCommaFormat : PyVal → Except String String
  | .int n =>
    .ok (String.mk ((if n < 0 then ['-'] else []) ++ commaGroup (natToDigits n.natAbs)))
  | .bool b => .ok (if b then "1" else "0")
  | .str _ => .error "ValueError: cannot specify a comma with s"
  | _ => .error "TypeError: unsupported format string"

mutual
/-- Python repr() of a modelled value.  Strings are quoted; escaping of
embedded quote characters is not modelled (no proved statement renders such
a string). -/
def pyRepr : PyVal → String
  | .str s => sqc ++ s ++ sqc
  | .int n => (if n < 0 then "-" else "") ++ String.mk (natToDigits n.natAbs)
  | .bool b => if b then "True" else "False"
  | .none => "None"
  | .list xs => "[" ++ pyReprList xs ++ "]"
  | .dict fs => "\x7b" ++ pyReprDict fs ++ "\x7d"
def pyReprList : PyList → String
  | .nil => ""
  | .cons v .nil => pyRepr v
  | .cons v (.cons w tl) => pyRepr v ++ ", " ++ pyReprList (.cons w tl)
def pyReprDict : PyDict → String
  | .nil => ""
  | .cons k v .nil => pyRepr k ++ ": " ++ pyRepr v
  | .cons k v (.cons k2 v2 tl) =>
    pyRepr k ++ ": " ++ pyRepr v ++ ", " ++ pyReprDict (.cons k2 v2 tl)
end

/-- Python str() of a modelled value: identity on strings, repr-like
elsewhere. -/
def pyStr : PyVal → String
  | .str s => s
  | v => pyRepr v

/-- List-level character membership (the Python expression (c in s)). -/
def containsC : List Char → Char → Bool
  | [], _ => false
  | x :: xs, c => x == c || containsC xs c

/-- Substring test, used to state facts about formatted summaries. -/
def listInfix (needle hay : List Char) : Bool :=
  match hay with
  | [] => needle.isEmpty
  | _ :: tl => needle.isPrefixOf hay || listInfix needle tl

/-- Whether the string needle occurs as a contiguous substring of hay. -/
def strContains (hay needle : String) : Bool :=
  listInfix needle.data hay.data

/-- Whether pre is a prefix of s (used to state what an output begins with). -/
def strStartsWith (s pre : String) : Bool :=
  pre.data.isPrefixOf s.data

/-- The str.replace step of the date normalizer: every slash becomes a dash. -/
def mapSlash (cs : List Char) : List Char :=
  cs.map (fun c => if c = '/' then '-' else c)

/-- Python str.endswith for the single character Z. -/
def endsWithZ (cs : List Char) : Bool :=
  match cs.getLast? with
  | some c => c == 'Z'
  | Option.none => false

/-- Python str.split on a dash separator. -/
def splitDash : List Char → List (List Char)
  | [] => [[]]
  | c :: cs =>
    if c = '-' then [] :: splitDash cs
    else
      match splitDash cs with
      | [] => [[c]]
      | g :: gs => (c :: g) :: gs

/-- Model of Python int() on the strings reachable in the date normalizer:
an optional sign followed by decimal digits.  (Whitespace and underscore
acceptance of CPython int() is not modelled; no claim depends on it.) -/
def pyInt? (cs : List Char) : Option Int :=
  match cs with
  | [] => Option.none
  | c :: rest =>
    if c = '-' then
      if rest.isEmpty then Option.none
      else if rest.all Char.isDigit then some (-(digitsVal rest : Int)) else Option.none
    else if c = '+' then
      if rest.isEmpty then Option.none
      else if rest.all Char.isDigit then some ((digitsVal rest : Int)) else Option.none
    else
      if (c :: rest).all Char.isDigit then some ((digitsVal (c :: rest) : Int))
      else Option.none

/-- The date branch of _convert_date_format, applied to the slash-normalized
input: a 10-character dashed date is split, parsed with int(), re-rendered
zero-padded and suffixed with the start/end time; any parse failure returns
the input unchanged. -/
def dateBranch (cs2 : List Char) (isStart : Bool) : List Char :=
  if cs2.length = 10 then
    match splitDash cs2 with
    | [y, m, d] =>
      match pyInt? y, pyInt? m, pyInt? d with
      | some yi, some mi, some di =>
        pyFormat0 4 yi ++ ['-'] ++ pyFormat0 2 mi ++ ['-'] ++ pyFormat0 2 di
          ++ (if isStart then "T00:00:00Z".data else "T23:59:59Z".data)
      | _, _, _ => cs2
    | _ => cs2
  else cs2

/-- Embedding of _convert_date_format from audit_tools.py, at the level of
character lists.  Mirrors the source structure: empty passthrough; timestamp
branch (slash normalization plus trailing Z); 10-character date branch with
int() parsing and zero-padded re-rendering plus the start/end time suffix;
passthrough otherwise. -/
def convertL (cs : List Char) (isStart : Bool) : List Char :=
  if cs.isEmpty then cs
  else if containsC cs 'T' then
    let cs2 := mapSlash cs
    if endsWithZ cs2 then cs2 else cs2 ++ ['Z']
  else dateBranch (mapSlash cs) isStart

/-- Embedding of _convert_date_format(date_str, is_start_date). -/
def convertDateFormat (s : String) (isStart : Bool) : String :=
  String.mk (convertL s.data isStart)

example : convertDateFormat "2025-04-01" true = "2025-04-01T00:00:00Z" := rfl
example : convertDateFormat "2025-04-01" false = "2025-04-01T23:59:59Z" := rfl
example : convertDateFormat "2025/04/01" true = "2025-04-01T00:00:00Z" := rfl
example : convertDateFormat "2025-04-01T10:00:00" true = "2025-04-01T10:00:00Z" := rfl
example : convertDateFormat "2025/04/01T00:00:00Z" true = "2025-04-01T00:00:00Z" := rfl
example : convertDateFormat "garbage" true = "garbage" := rfl
example : pyCommaFormat (.int 1234567) = .ok "1,234,567" := rfl
example : pyCommaFormat (.int 12) = .ok "12" := rfl

/-- LUNA action code descriptions table from _analyze_audit_logs (embedded
verbatim from the source). -/
def LUNA_ACTION_DESCRIPTIONS : List (String × String) := [
  ("LUNA_CANCEL_CRYPTO_OPERATION", "Cancels the crypto operation"),
  ("LUNA_CLONE_AS_SOURCE", "Clones an object from the source token"),
  ("LUNA_CLONE_AS_TARGET", "Clones an object to the target token"),
  ("LUNA_CLONE_AS_TARGET_INIT", "Initializes cloning an object to the target token"),
  ("LUNA_CLONE_CONFIGURE_POLICY", "Enables and disables cloning cipher suites"),
  ("LUNA_CLONE_GET_POLICY", "Used to query the status and the names of all cloning cipher suites"),
  ("LUNA_CREATE_OBJECT", "Creates an object"),
  ("LUNA_DECRYPT", "Decrypts encrypted data"),
  ("LUNA_DECRYPT_END", "Finishes a decryption operation"),
  ("LUNA_DECRYPT_INIT", "Initializes a decryption operation"),
  ("LUNA_DECRYPT_SINGLEPART", "Decrypts encrypted single-part data"),
  ("LUNA_DERIVE_KEY", "Derives a key from a base key"),
  ("LUNA_DERIVE_KEY_AND_WRAP", "Derives a key from a base key and wraps (encrypt) the key"),
  ("LUNA_DESTROY_OBJECT", "Destroys an object"),
  ("LUNA_DIGEST", "Digests single-part data"),
  ("LUNA_DIGEST_END", "Finishes a multiple-part digesting operation"),
  ("LUNA_DIGEST_INIT", "Initializes a message-digesting operation"),
  ("LUNA_DIGEST_KEY", "Digests a key"),
  ("LUNA_DIGEST_KEY_VALUE", "Digests a key value"),
  ("LUNA_ENCRYPT", "Encrypts data"),
  ("LUNA_ENCRYPT_END", "Finishes a multiple-part encryption operation"),
  ("LUNA_ENCRYPT_INIT", "Initializes a multiple-part encryption operation"),
  ("LUNA_ENCRYPT_SINGLEPART", "Encrypts single-part data"),
  ("LUNA_GENERATE_DOMAIN_PARAM", "Generated domain parameters"),
  ("LUNA_GENERATE_KEY", "Generates a secret key"),
  ("LUNA_GENERATE_KEY_PAIR", "Generates a public-key/private-key pair"),
  ("LUNA_GEN_KCV", "Generate a key check sum value"),
  ("LUNA_INIT_PIN", "Initializes the users PIN"),
  ("LUNA_LOGIN", "Logs in to a token"),
  ("LUNA_MODIFY_OBJECT", "Updates an object"),
  ("LUNA_PARTITION_INIT", "Initializes the HSM partition"),
  ("LUNA_PARTITION_ZEROIZE", "Zeroize the HSM partition"),
  ("LUNA_REPLICATE_AS_SOURCE", "Replicate an object from the source token"),
  ("LUNA_REPLICATE_AS_TARGET", "Replicate an object to the target token"),
  ("LUNA_REPLICATE_AS_TARGET_INIT", "Initializes replicating an object to the target token"),
  ("LUNA_SET_PIN", "Modifies the PIN of the current user"),
  ("LUNA_SIGN", "Signs data"),
  ("LUNA_SIGN_END", "Finishes a multi-part sign operation"),
  ("LUNA_SIGN_INIT", "Initializes a multi-part sign operation"),
  ("LUNA_SIGN_SINGLEPART", "Signs single-part data"),
  ("LUNA_UNWRAP_KEY", "Unwraps a key"),
  ("LUNA_VERIFY", "Verifies a signature on data"),
  ("LUNA_VERIFY_END", "Finishes a multi-part verification operation"),
  ("LUNA_VERIFY_INIT", "Initializes a multi-part verification operation"),
  ("LUNA_VERIFY_SINGLEPART", "Verifies a signature on single-part data"),
  ("LUNA_WRAP_KEY", "Wraps a key")]

/-- CTAAS/CDSP action descriptions table from _analyze_audit_logs, embedded
in source order.  The Python dict literal repeats a few keys (Update Key,
Create Connection); CPython keeps the last value for a repeated key, while
first-match lookup below returns the first.  The table is never consulted by
the analyzer, and the claims only use key membership, for which the two
semantics agree. -/
def CTAAS_ACTION_DESCRIPTIONS : List (String × String) := [
  ("Create Key Version", "Creates a new version of an existing key"),
  ("Create Token", "Creates a new authentication token"),
  ("Create Key", "Creates a new cryptographic key"),
  ("Update User", "Updates user information or permissions"),
  ("Create Connection", "Establishes a new connection to the service"),
  ("Create connection", "Establishes a new connection to the service"),
  ("Delete Key", "Deletes a cryptographic key"),
  ("Delete Key Version", "Deletes a specific version of a key"),
  ("Update Key", "Updates key properties or metadata"),
  ("Rotate Key", "Rotates a key to a new version"),
  ("Encrypt", "Encrypts data using a key"),
  ("Decrypt", "Decrypts data using a key"),
  ("Sign", "Signs data using a key"),
  ("Verify", "Verifies a signature"),
  ("Wrap Key", "Wraps (encrypts) a key for export"),
  ("Unwrap Key", "Unwraps (decrypts) an imported key"),
  ("Generate Key", "Generates a new cryptographic key"),
  ("Import Key", "Imports a key into the service"),
  ("Export Key", "Exports a key from the service"),
  ("Get Key", "Retrieves key information"),
  ("List Keys", "Lists available keys"),
  ("Create Policy", "Creates a new access policy"),
  ("Update Policy", "Updates an existing policy"),
  ("Delete Policy", "Deletes a policy"),
  ("Create Role", "Creates a new user role"),
  ("Update Role", "Updates an existing role"),
  ("Delete Role", "Deletes a user role"),
  ("Create User", "Creates a new user account"),
  ("Delete User", "Deletes a user account"),
  ("Login", "User authentication/login"),
  ("Logout", "User logout"),
  ("Change Password", "Changes user password"),
  ("Reset Password", "Resets user password"),
  ("Create Certificate", "Creates a new certificate"),
  ("Delete Certificate", "Deletes a certificate"),
  ("Update Certificate", "Updates certificate properties"),
  ("Revoke Certificate", "Revokes a certificate"),
  ("Create CA", "Creates a new Certificate Authority"),
  ("Delete CA", "Deletes a Certificate Authority"),
  ("Update CA", "Updates Certificate Authority properties"),
  ("Create CSR", "Creates a Certificate Signing Request"),
  ("Sign CSR", "Signs a Certificate Signing Request"),
  ("Create Secret", "Creates a new secret"),
  ("Delete Secret", "Deletes a secret"),
  ("Update Secret", "Updates secret properties"),
  ("Get Secret", "Retrieves secret value"),
  ("List Secrets", "Lists available secrets"),
  ("Create Vault", "Creates a new vault"),
  ("Delete Vault", "Deletes a vault"),
  ("Update Vault", "Updates vault properties"),
  ("Create Backup", "Creates a backup of data"),
  ("Restore Backup", "Restores data from backup"),
  ("Create Snapshot", "Creates a snapshot of current state"),
  ("Delete Snapshot", "Deletes a snapshot"),
  ("Create Audit Log", "Creates an audit log entry"),
  ("Get Audit Logs", "Retrieves audit log entries"),
  ("Create Event", "Creates a new event"),
  ("Update Event", "Updates an event"),
  ("Delete Event", "Deletes an event"),
  ("Create Alert", "Creates a new alert"),
  ("Update Alert", "Updates an alert"),
  ("Delete Alert", "Deletes an alert"),
  ("Create Rule", "Creates a new rule"),
  ("Update Rule", "Updates a rule"),
  ("Delete Rule", "Deletes a rule"),
  ("Create Group", "Creates a new group"),
  ("Update Group", "Updates group properties"),
  ("Delete Group", "Deletes a group"),
  ("Add User to Group", "Adds a user to a group"),
  ("Remove User from Group", "Removes a user from a group"),
  ("Create Permission", "Creates a new permission"),
  ("Update Permission", "Updates a permission"),
  ("Delete Permission", "Deletes a permission"),
  ("Grant Permission", "Grants a permission to a user/role"),
  ("Revoke Permission", "Revokes a permission from a user/role"),
  ("Use Key", "Uses a key for cryptographic operations"),
  ("Find Keys", "Searches for keys matching criteria"),
  ("Find Key", "Searches for a specific key"),
  ("Versions", "Lists key versions"),
  ("Read Key", "Reads key information"),
  ("Destroy Key", "Destroys a key permanently"),
  ("Update Key", "Updates key properties"),
  ("Create Connection", "Creates a connection to external service"),
  ("Test Connection", "Tests connectivity to external service"),
  ("Add SNMP Community", "Adds SNMP community configuration"),
  ("Update SNMP Community", "Updates SNMP community settings"),
  ("Add SNMP User", "Adds SNMP user configuration"),
  ("Add SNMP Management Station", "Adds SNMP management station"),
  ("Terminating KMIP Connection", "Terminates KMIP connection"),
  ("RegisterKmipClient", "Registers a KMIP client"),
  ("CreateKmipClient RegistrationToken", "Creates KMIP client registration token"),
  ("CreateKmipClient Profile", "Creates KMIP client profile"),
  ("CreateKmip ClientProfile", "Creates KMIP client profile"),
  ("Get HSM Server", "Retrieves HSM server information"),
  ("Find HSM Servers", "Searches for HSM servers"),
  ("Setup HSM Server", "Sets up HSM server configuration"),
  ("Add HSM Server", "Adds HSM server to configuration"),
  ("Delete HSM Server", "Removes HSM server from configuration"),
  ("Create CTE Policy", "Creates a new CTE policy"),
  ("Update CTE Policy", "Updates an existing CTE policy"),
  ("Update CTE PolicyXML", "Updates CTE policy XML configuration"),
  ("Create CTE PolicyAuditRecord", "Creates a CTE policy audit record"),
  ("Create CTE SecurityRule", "Creates a new CTE security rule"),
  ("Create CTE LDTRule", "Creates a new CTE LDT (Logical Data Type) rule"),
  ("Create CTE KeyMeta", "Creates CTE key metadata"),
  ("Create CTE KeyRule", "Creates a new CTE key rule"),
  ("Delete CTE Policy", "Deletes a CTE policy")]

/-- First-match lookup in a string association table (dict.get for the
static description tables). -/
def assocLookup : List (String × String) → String → Option String
  | [], _ => Option.none
  | (k, v) :: tl, key => if k == key then some v else assocLookup tl key

/-- Key membership in a static description table. -/
def assocHasKey (t : List (String × String)) (key : String) : Bool :=
  match assocLookup t key with
  | some _ => true
  | Option.none => false

/-- LUNA_ACTION_DESCRIPTIONS.get(action): only string actions can match the
string-keyed table. -/
def lunaLookup : PyVal → Option String
  | .str s => assocLookup LUNA_ACTION_DESCRIPTIONS s
  | _ => Option.none

/-- One line of the downloaded export file, as seen after line.strip() and
json.loads: blank lines are skipped, lines that fail JSON decoding are
logged and skipped, and parsed lines produce a Python value. -/
inductive SrcLine where
  | blank
  | malformed
  | record (v : PyVal)

/-- The list of successfully parsed log entries of a file (the logs list
built by the read loop of _analyze_audit_logs). -/
def parsedRecords (lines : List SrcLine) : List PyVal :=
  lines.filterMap (fun l =>
    match l with
    | .record v => some v
    | _ => Option.none)

/-- Running aggregation state of the analyzer: the three histograms and the
time range. -/
structure AnaSt where
  actions  : List (PyVal × Nat)
  statuses : List (PyVal × Nat)
  sources  : List (PyVal × Nat)
  earliest : PyVal
  latest   : PyVal

/-- One histogram update: d[key] = d.get(key, 0) + 1 on an insertion-ordered
dict.  An existing slot keeps its position and its originally inserted key
object, as in CPython. -/
def bump (k : PyVal) : List (PyVal × Nat) → List (PyVal × Nat)
  | [] => [(k, 1)]
  | (k2, c) :: tl => if pyEqKey k k2 then (k2, c + 1) :: tl else (k2, c) :: bump k tl

/-- Processing of one parsed log entry by the aggregation loop of
_analyze_audit_logs: bump the action, status and source histograms (raising
TypeError on an unhashable key), then update the earliest/latest time via
Python comparisons. -/
def stepLog (st : AnaSt) (log : PyVal) : Except String AnaSt :=
  match log with
  | .dict fs =>
    let action := fs.getD "action" (.str "UNKNOWN")
    if isHashable action = false then .error "TypeError: unhashable type" else
    let st1 : AnaSt := ⟨bump action st.actions, st.statuses, st.sources, st.earliest, st.latest⟩
    let status := fs.getD "status" (.str "UNKNOWN")
    if isHashable status = false then .error "TypeError: unhashable type" else
    let st2 : AnaSt := ⟨st1.actions, bump status st1.statuses, st1.sources, st1.earliest, st1.latest⟩
    let source := fs.getD "source" (.str "UNKNOWN")
    if isHashable source = false then .error "TypeError: unhashable type" else
    let st3 : AnaSt := ⟨st2.actions, st2.statuses, bump source st2.sources, st2.earliest, st2.latest⟩
    let t := fs.getD "time" .none
    if pyTruthy t then
      match (if pyTruthy st3.earliest then pyLt t st3.earliest else .ok true) with
      | .error e => .error e
      | .ok be =>
        let e2 := if be then t else st3.earliest
        match (if pyTruthy st3.latest then pyLt st3.latest t else .ok true) with
        | .error e => .error e
        | .ok bl =>
          let l2 := if bl then t else st3.latest
          .ok ⟨st3.actions, st3.statuses, st3.sources, e2, l2⟩
    else .ok st3
  | _ => .error "AttributeError: object has no attribute get"

/-- The aggregation loop over all parsed log entries. -/
def runLoop : List PyVal → AnaSt → Except String AnaSt
  | [], st => .ok st
  | log :: rest, st =>
    match stepLog st log with
    | .error e => .error e
    | .ok st2 => runLoop rest st2

/-- The action_summary entry for one action: count plus, for known LUNA
codes only, a description. -/
def annotateAction (a : PyVal) (c : Nat) : PyVal :=
  match lunaLookup a with
  | some d => .dict (.cons (.str "count") (.int c) (.cons (.str "description") (.str d) .nil))
  | Option.none => .dict (.cons (.str "count") (.int c) .nil)

/-- The all_actions dict of the summary, in histogram (insertion) order. -/
def actionSummaryEntries (hist : List (PyVal × Nat)) : List (PyVal × PyVal) :=
  hist.map (fun p => (p.1, annotateAction p.1 p.2))

/-- Subscription v[key] for a string key: KeyError (whose str() is the
quoted key) when a dict lacks the key, TypeError on non-dicts. -/
def pySubscriptS (v : PyVal) (key : String) : Except String PyVal :=
  match v with
  | .dict fs =>
    match fs.get? key with
    | some w => .ok w
    | Option.none => .error (sqc ++ key ++ sqc)
  | _ => .error "TypeError: object is not subscriptable"

/-- Stable insertion for descending sort by an extracted key: the new
element goes after every accumulated element whose key is not below it. -/
def insertDescBy (keyOf : α → Except String PyVal) (x : α) :
    List α → Except String (List α)
  | [] => .ok [x]
  | y :: ys =>
    match keyOf y, keyOf x with
    | .error e, _ => .error e
    | .ok _, .error e => .error e
    | .ok ky, .ok kx =>
      match pyLt ky kx with
      | .error e => .error e
      | .ok true => .ok (x :: y :: ys)
      | .ok false =>
        match insertDescBy keyOf x ys with
        | .error e => .error e
        | .ok r => .ok (y :: r)

/-- Stable descending sort by an extracted key, modelling
sorted(..., key=..., reverse=True).  Comparison failures raise as in
Python; the insertion strategy is an implementation detail of the model. -/
def sortDescByAux (keyOf : α → Except String PyVal) :
    List α → List α → Except String (List α)
  | [], acc => .ok acc
  | x :: xs, acc =>
    match insertDescBy keyOf x acc with
    | .error e => .error e
    | .ok acc2 => sortDescByAux keyOf xs acc2

/-- sorted(l, key=keyOf, reverse=True). -/
def sortDescBy (keyOf : α → Except String PyVal) (l : List α) :
    Except String (List α) :=
  sortDescByAux keyOf l []

/-- Ascending insertion by histogram key, for sorted(d.items()); dict keys
are pairwise distinct so tuple comparison reduces to key comparison. -/
def insertAscKey (x : PyVal × Nat) :
    List (PyVal × Nat) → Except String (List (PyVal × Nat))
  | [] => .ok [x]
  | y :: ys =>
    match pyLt x.1 y.1 with
    | .error e => .error e
    | .ok true => .ok (x :: y :: ys)
    | .ok false =>
      match insertAscKey x ys with
      | .error e => .error e
      | .ok r => .ok (y :: r)

/-- sorted(d.items()) over a histogram. -/
def sortPairsByKeyAux :
    List (PyVal × Nat) → List (PyVal × Nat) → Except String (List (PyVal × Nat))
  | [], acc => .ok acc
  | x :: xs, acc =>
    match insertAscKey x acc with
    | .error e => .error e
    | .ok acc2 => sortPairsByKeyAux xs acc2

/-- Ascending sort of histogram items by key. -/
def sortPairsByKey (l : List (PyVal × Nat)) : Except String (List (PyVal × Nat)) :=
  sortPairsByKeyAux l []

/-- A dict built from string-keyed entries, in insertion order. -/
def strDict : List (String × PyVal) → PyDict
  | [] => .nil
  | (k, v) :: tl => .cons (.str k) v (strDict tl)

/-- A histogram rendered as a dict with int counts. -/
def countsDict : List (PyVal × Nat) → PyDict
  | [] => .nil
  | (k, c) :: tl => .cons k (.int c) (countsDict tl)

/-- One (action, details) pair of most_common_actions (a Python tuple,
conflated with a list in this model). -/
def pairVal (p : PyVal × PyVal) : PyVal :=
  .list (.cons p.1 (.cons p.2 .nil))

/-- The summary returned when no log parsed. -/
def noLogsDict : PyDict :=
  strDict [("total_logs", .int 0),
           ("message", .str "No audit logs found in the specified time range")]

/-- The summary dict built by _analyze_audit_logs on the success path. -/
def buildSummary (logs : List PyVal) (st : AnaSt)
    (sortedActions : List (PyVal × PyVal)) (ss srcs : List (PyVal × Nat)) : PyDict :=
  strDict [
    ("total_logs", .int logs.length),
    ("time_range", .dict (strDict [("earliest", st.earliest), ("latest", st.latest)])),
    ("action_summary", .dict (strDict [
        ("total_unique_actions", .int st.actions.length),
        ("most_common_actions", .list (PyList.ofList ((sortedActions.take 10).map pairVal))),
        ("all_actions", .dict (PyDict.ofEntries (actionSummaryEntries st.actions)))])),
    ("status_summary", .dict (strDict [
        ("total_unique_statuses", .int st.statuses.length),
        ("status_breakdown", .dict (countsDict ss))])),
    ("source_summary", .dict (strDict [
        ("total_unique_sources", .int st.sources.length),
        ("source_breakdown", .dict (countsDict srcs))])),
    ("recent_activity", .list (PyList.ofList (if logs.length > 10 then logs.take 10 else logs)))]

/-- The body of _analyze_audit_logs after the read loop, with each Python
exception point in the Except monad. -/
def analyzeCore (logs : List PyVal) : Except String PyDict :=
  if logs.isEmpty then .ok noLogsDict
  else
    match runLoop logs ⟨[], [], [], .none, .none⟩ with
    | .error e => .error e
    | .ok st =>
      match sortDescBy (fun p => pySubscriptS p.2 "count") (actionSummaryEntries st.actions) with
      | .error e => .error e
      | .ok sortedActions =>
        match sortPairsByKey st.statuses with
        | .error e => .error e
        | .ok ss =>
          match sortPairsByKey st.sources with
          | .error e => .error e
          | .ok srcs => .ok (buildSummary logs st sortedActions ss srcs)

/-- The dict returned by the catch-all handler of _analyze_audit_logs. -/
def analyzeErrorDict (e : String) : PyDict :=
  strDict [("error", .str ("Failed to analyze audit logs: " ++ e)),
           ("total_logs", .int 0)]

/-- Embedding of _analyze_audit_logs over the per-line parse outcomes of the
downloaded file. -/
def analyzeAuditLogs (lines : List SrcLine) : PyDict :=
  match analyzeCore (parsedRecords lines) with
  | .ok d => d
  | .error e => analyzeErrorDict e

/-- The total_logs field of a summary, as an integer (0 when absent). -/
def totalLogsOf (d : PyDict) : Int :=
  match d.get? "total_logs" with
  | some (.int n) => n
  | _ => 0

/-- The count field of one all_actions entry (0 when absent or non-int). -/
def countOfEntry : PyVal → Int
  | .dict fs =>
    match fs.get? "count" with
    | some (.int n) => n
    | _ => 0
  | _ => 0

/-- Sum of the count fields over the entries of an all_actions dict. -/
def sumCountsD : PyDict → Int
  | .nil => 0
  | .cons _ v tl => countOfEntry v + sumCountsD tl

/-- The all_actions dict inside a summary (empty when absent). -/
def allActionsOf (d : PyDict) : PyDict :=
  match d.get? "action_summary" with
  | some (.dict a) =>
    match a.get? "all_actions" with
    | some (.dict aa) => aa
    | _ => .nil
  | _ => .nil

/-- Sum of the per-action counts of a summary. -/
def sumCountsOf (d : PyDict) : Int :=
  sumCountsD (allActionsOf d)

/-- Calling .get(key, default) on an arbitrary value: works on dicts,
raises AttributeError otherwise. -/
def pyGetMethod (v : PyVal) (key : String) (dflt : PyVal) : Except String PyVal :=
  match v with
  | .dict fs => .ok (fs.getD key dflt)
  | _ => .error "AttributeError: object has no attribute get"

/-- Key membership by Python equality over the keys of a dict. -/
def PyDict.hasKeyV (d : PyDict) (key : PyVal) : Bool :=
  match d.getV? key with
  | some _ => true
  | Option.none => false

/-- Membership of a value in a Python list.  Deep equality between container
operands is not modelled (no proved statement depends on it); atomic values
compare by Python equality. -/
def PyList.hasV (xs : PyList) (probe : PyVal) : Bool :=
  match xs with
  | .nil => false
  | .cons v tl => pyEqKey probe v || PyList.hasV tl probe

/-- The Python expression (probe in v): key membership for dicts (raising on
an unhashable probe), element membership for lists, substring test for
strings, TypeError otherwise. -/
def pyInOp (probe v : PyVal) : Except String Bool :=
  match v with
  | .dict fs =>
    if isHashable probe then .ok (fs.hasKeyV probe)
    else .error "TypeError: unhashable type"
  | .list xs => .ok (xs.hasV probe)
  | .str s =>
    match probe with
    | .str p => .ok (strContains s p)
    | _ => .error "TypeError: in string requires string as left operand"
  | _ => .error "TypeError: argument is not iterable"

/-- Iteration over an arbitrary value: list elements, dict keys, string
characters; TypeError otherwise. -/
def pyIterVals (v : PyVal) : Except String (List PyVal) :=
  match v with
  | .list xs => .ok xs.toList
  | .dict fs => .ok (fs.entries.map Prod.fst)
  | .str s => .ok (s.data.map (fun c => .str (String.singleton c)))
  | _ => .error "TypeError: object is not iterable"

/-- Tuple unpacking (a, b = v) of one iterated element. -/
def pyUnpack2 (v : PyVal) : Except String (PyVal × PyVal) :=
  match v with
  | .list (.cons a (.cons b .nil)) => .ok (a, b)
  | .str s =>
    match s.data with
    | [c1, c2] => .ok (.str (String.singleton c1), .str (String.singleton c2))
    | _ => .error "ValueError: wrong number of values to unpack"
  | .dict (.cons k1 _ (.cons k2 _ .nil)) => .ok (k1, k2)
  | _ => .error "TypeError: cannot unpack non-iterable value"

/-- Subscription v[key] for an arbitrary key: dict lookup raising KeyError
(whose str() is the repr of the key) or TypeError. -/
def pySubscriptV (v key : PyVal) : Except String PyVal :=
  match v with
  | .dict fs =>
    if isHashable key then
      match fs.getV? key with
      | some w => .ok w
      | Option.none => .error (pyRepr key)
    else .error "TypeError: unhashable type"
  | _ => .error "TypeError: object is not subscriptable"

/-- The .items() call: dict entries, AttributeError otherwise. -/
def pyItems (v : PyVal) : Except String (List (PyVal × PyVal)) :=
  match v with
  | .dict fs => .ok fs.entries
  | _ => .error "AttributeError: object has no attribute items"

/-- The slice v[:10], then iteration over the result. -/
def pySliceIter10 (v : PyVal) : Except String (List PyVal) :=
  match v with
  | .list xs => .ok (xs.toList.take 10)
  | .str s => .ok ((s.data.take 10).map (fun c => .str (String.singleton c)))
  | _ => .error "TypeError: object is not subscriptable by slice"

/-- The most-common-operations loop of _format_audit_summary_for_display:
for every (action, details) pair, details subscripts for count and
description (the latter a KeyError when the analyzer stored no description),
then the bullet line is rendered. -/
def fmtActionLines : List PyVal → List String → Except String (List String)
  | [], acc => .ok acc
  | e :: rest, acc =>
    match pyUnpack2 e with
    | .error err => .error err
    | .ok (action, details) =>
      match pySubscriptS details "count" with
      | .error err => .error err
      | .ok count =>
        match pySubscriptS details "description" with
        | .error err => .error err
        | .ok desc =>
          match pyCommaFormat count with
          | .error err => .error err
          | .ok cf =>
            fmtActionLines rest
              (acc ++ ["  • " ++ pyStr action ++ ": " ++ cf ++ " operations - " ++ pyStr desc])

/-- The status/source breakdown loops: one bullet per (key, count) pair. -/
def fmtCountLines : List (PyVal × PyVal) → List String → Except String (List String)
  | [], acc => .ok acc
  | (k, c) :: rest, acc =>
    match pyCommaFormat c with
    | .error err => .error err
    | .ok cf => fmtCountLines rest (acc ++ ["  • " ++ pyStr k ++ ": " ++ cf])

/-- The recent-activity loop: for the i-th sliced entry (1-based, sliceLen
entries in all), fields are fetched with .get, the action description is
looked up through the nested all_actions membership checks, and two lines
(plus a separator when not last) are rendered. -/
def fmtRecentLines (ar : PyDict) (sliceLen : Nat) :
    List PyVal → Nat → List String → Except String (List String)
  | [], _, acc => .ok acc
  | log :: rest, i, acc =>
    match pyGetMethod log "action" (.str "UNKNOWN") with
    | .error err => .error err
    | .ok action =>
      match pyGetMethod log "time" (.str "Unknown") with
      | .error err => .error err
      | .ok time =>
        match pyGetMethod log "status" (.str "Unknown") with
        | .error err => .error err
        | .ok status =>
          match pyGetMethod log "source" (.str "Unknown") with
          | .error err => .error err
          | .ok source =>
            match
              (if ar.hasKey "action_summary" then
                match ar.get? "action_summary" with
                | some asv => pyInOp (.str "all_actions") asv
                | Option.none => .ok false
              else .ok false : Except String Bool) with
            | .error err => .error err
            | .ok hasAll =>
              match
                (if hasAll then
                  match ar.get? "action_summary" with
                  | some asv =>
                    match pySubscriptS asv "all_actions" with
                    | .error err => .error err
                    | .ok allA =>
                      match pyInOp action allA with
                      | .error err => .error err
                      | .ok true =>
                        match pySubscriptV allA action with
                        | .error err => .error err
                        | .ok entry =>
                          match pySubscriptS entry "description" with
                          | .error err => .error err
                          | .ok d => .ok (" - " ++ pyStr d)
                      | .ok false => .ok ""
                  | Option.none => .ok ""
                else .ok "" : Except String String) with
              | .error err => .error err
              | .ok actionDesc =>
                let line1 := "  " ++ String.mk (natToDigits i) ++ ". " ++ pyStr time
                  ++ " | " ++ pyStr action ++ actionDesc
                let line2 := "     Status: " ++ pyStr status ++ " | Source: " ++ pyStr source
                let acc2 := acc ++ [line1, line2] ++ (if i < sliceLen then [""] else [])
                fmtRecentLines ar sliceLen rest (i + 1) acc2

/-- The try-block body of _format_audit_summary_for_display, with every
Python exception point in the Except monad, in source evaluation order. -/
def formatBody (ar : PyDict) : Except String String :=
  if pyTruthy (.dict ar) = false || ar.hasKey "error" then
    .ok ("Error: " ++ pyStr (ar.getD "error" (.str "Unknown error")))
  else
    let total := ar.getD "total_logs" (.int 0)
    if pyEqKey total (.int 0) then .ok "No audit logs found in the specified time range"
    else
      let timeRange := ar.getD "time_range" (.dict .nil)
      match pyGetMethod timeRange "earliest" (.str "Unknown") with
      | .error err => .error err
      | .ok earliest =>
        match pyGetMethod timeRange "latest" (.str "Unknown") with
        | .error err => .error err
        | .ok latest =>
          let actionSummary := ar.getD "action_summary" (.dict .nil)
          match pyGetMethod actionSummary "most_common_actions" (.list .nil) with
          | .error err => .error err
          | .ok mca =>
            match pyCommaFormat total with
            | .error err => .error err
            | .ok totalStr =>
              let out0 := ["📊 **Audit Log Summary**",
                           "Total logs: " ++ totalStr,
                           "Time period: " ++ pyStr earliest ++ " to " ++ pyStr latest,
                           ""]
              match
                (if pyTruthy mca then
                  match pyIterVals mca with
                  | .error err => .error err
                  | .ok elems =>
                    match fmtActionLines elems (out0 ++ ["🔍 **Most Common Operations:**"]) with
                    | .error err => .error err
                    | .ok ls => .ok (ls ++ [""])
                else .ok out0 : Except String (List String)) with
              | .error err => .error err
              | .ok out1 =>
                let statusSummary := ar.getD "status_summary" (.dict .nil)
                match pyGetMethod statusSummary "status_breakdown" (.dict .nil) with
                | .error err => .error err
                | .ok sb =>
                  match
                    (if pyTruthy sb then
                      match pyItems sb with
                      | .error err => .error err
                      | .ok items =>
                        match sortDescBy (fun p => .ok p.2) items with
                        | .error err => .error err
                        | .ok sorted =>
                          match fmtCountLines sorted (out1 ++ ["✅ **Status Breakdown:**"]) with
                          | .error err => .error err
                          | .ok ls => .ok (ls ++ [""])
                    else .ok out1 : Except String (List String)) with
                  | .error err => .error err
                  | .ok out2 =>
                    let sourceSummary := ar.getD "source_summary" (.dict .nil)
                    match pyGetMethod sourceSummary "source_breakdown" (.dict .nil) with
                    | .error err => .error err
                    | .ok srcb =>
                      match
                        (if pyTruthy srcb then
                          match pyItems srcb with
                          | .error err => .error err
                          | .ok items =>
                            match sortDescBy (fun p => .ok p.2) items with
                            | .error err => .error err
                            | .ok sorted =>
                              match fmtCountLines sorted (out2 ++ ["🏢 **Source Breakdown:**"]) with
                              | .error err => .error err
                              | .ok ls => .ok (ls ++ [""])
                        else .ok out2 : Except String (List String)) with
                      | .error err => .error err
                      | .ok out3 =>
                        let recent := ar.getD "recent_activity" (.list .nil)
                        match
                          (if pyTruthy recent then
                            match pySliceIter10 recent with
                            | .error err => .error err
                            | .ok sliced =>
                              fmtRecentLines ar sliced.length sliced 1
                                (out3 ++ ["🕒 **Recent Activity (Last 10 operations):**"])
                          else .ok out3 : Except String (List String)) with
                        | .error err => .error err
                        | .ok out4 => .ok (String.intercalate "\n" out4)

/-- Embedding of _format_audit_summary_for_display: the try-block body with
the catch-all turning any exception into the error-formatting string. -/
def formatAuditSummary (ar : PyDict) : String :=
  match formatBody ar with
  | .ok s => s
  | .error e => "Error formatting summary: " ++ e

/-- Outcome of one poll iteration of _wait_for_export_completion: either the
authenticated GET raised (network error caught by the except branch), or it
returned a status code and the parsed state/location fields of the job. -/
inductive PollStep where
  | exn
  | resp (code : Nat) (state : Option String) (location : Option String)

/-- Truthiness of the optional location string (Python checks
(state == "SUCCEEDED" and location)). -/
def locTruthy : Option String → Bool
  | some l => l ≠ ""
  | Option.none => false

/-- The while loop of _wait_for_export_completion.  Iteration k runs at
elapsed time 10k seconds (polls idealized as instantaneous, each non-final
iteration sleeping 10 seconds); the loop guard is elapsed < maxWait.  A non-200
response returns None at once; SUCCEEDED with a truthy location returns it;
FAILED and CANCELLED return None; any other state sleeps and re-polls, and a
raised poll exception also sleeps and re-polls.  Exhausting the guard returns
None.  The fuel argument only ensures termination and is chosen large enough
at the call site to never run out. -/
def waitGo (poll : Nat → PollStep) (maxWait : Nat) : Nat → Nat → Option String
  | 0, _ => Option.none
  | fuel + 1, k =>
    if 10 * k < maxWait then
      match poll k with
      | .exn => waitGo poll maxWait fuel (k + 1)
      | .resp code state location =>
        if code ≠ 200 then Option.none
        else if state = some "SUCCEEDED" ∧ locTruthy location then location
        else if state = some "FAILED" then Option.none
        else if state = some "CANCELLED" then Option.none
        else waitGo poll maxWait fuel (k + 1)
    else Option.none

/-- Embedding of _wait_for_export_completion: returns the download URL, or
None on remote failure, cancellation, non-200 status response, or timeout. -/
def waitForExportCompletion (poll : Nat → PollStep) (maxWait : Nat) : Option String :=
  waitGo poll maxWait (maxWait + 1) 0

/-- The single failure value of the workflow wait stage: when
_wait_for_export_completion returns no URL, _get_audit_logs_complete_workflow
returns this dict regardless of why the wait ended. -/
def waitFailureDict : PyDict :=
  strDict [("success", .bool false),
           ("error", .str "Export job failed or timed out")]

/-- Step 4 of _get_audit_logs_complete_workflow: either the download URL to
continue with, or the combined failure dict. -/
def workflowWaitStage (poll : Nat → PollStep) (maxWait : Nat) : Except PyDict String :=
  match waitForExportCompletion poll maxWait with
  | some url => if url = "" then .error waitFailureDict else .ok url
  | Option.none => .error waitFailureDict

/-- One provisioned service instance as consumed by the resolver and by
_detect_service_details: the four fields the code reads, each optional as a
dict .get would yield (other response fields are never read). -/
structure ServiceInstanceR where
  name : Option String
  service_id : Option String
  serviceType : Option String
  partition_serial_number : Option String

/-- Truthiness of an optional string field. -/
def optTruthy : Option String → Bool
  | some s => s ≠ ""
  | Option.none => false

/-- Extraction of the UUID of a found service in _resolve_service_identifier:
a missing or empty service_id raises ValueError. -/
def extractServiceId (ident : String) (inst : ServiceInstanceR) : Except String String :=
  match inst.service_id with
  | some uid =>
    if uid = "" then
      .error ("Found service by name " ++ sqc ++ ident ++ sqc ++ " but could not get UUID from response")
    else .ok uid
  | Option.none =>
    .error ("Found service by name " ++ sqc ++ ident ++ sqc ++ " but could not get UUID from response")

/-- Embedding of _resolve_service_identifier from service_tools.py.  The
validity test of the uuid.UUID constructor (a Python standard library call)
is abstracted into the uuidValid oracle; the UUID branch returns the input
unchanged only when the length is 36, a hyphen occurs, and the oracle
accepts.  Otherwise the provisioned instances are scanned for a
case-sensitive exact name match first, then a case-insensitive match, and the
found instance must carry a truthy service_id. -/
def resolveServiceIdentifier (uuidValid : String → Bool)
    (instances : List ServiceInstanceR) (ident : String) : Except String String :=
  if ident = "" then .error "Service identifier is required"
  else if ident.length = 36 && containsC ident.data '-' && uuidValid ident then .ok ident
  else
    match instances.find? (fun i => i.name == some ident) with
    | some inst => extractServiceId ident inst
    | Option.none =>
      match instances.find? (fun i =>
          optTruthy i.name && ((i.name.getD "").toLower == ident.toLower)) with
      | some inst => extractServiceId ident inst
      | Option.none =>
        if instances.isEmpty then
          .error ("Service not found by name " ++ sqc ++ ident ++ sqc ++ ". No services found in account.")
        else
          .error ("Service not found by name " ++ sqc ++ ident ++ sqc ++ ". Available services listed.")

/-- Embedding of _detect_service_details, given the already-resolved service
id, the HTTP status of the instance listing, and its content: find the
instance whose service_id equals the resolved id, then derive the source
from the service type (the reserved cdsp token for ctaas, a synthesized
thales/cloudhsm path for a truthy partition serial, None otherwise). -/
def detectServiceDetails (listStatus : Nat) (services : List ServiceInstanceR)
    (resolvedId : String) : Option (Option String × String) :=
  if listStatus ≠ 200 then Option.none
  else
    match services.find? (fun s => s.service_id == some resolvedId) with
    | Option.none => Option.none
    | some target =>
      let source : Option String :=
        if target.serviceType = some "ctaas" then some "cdsp"
        else
          match target.partition_serial_number with
          | some serial => if serial ≠ "" then some ("thales/cloudhsm/" ++ serial) else Option.none
          | Option.none => Option.none
      some (source, resolvedId)

/-- Leading-whitespace removal, the building block of str.strip. -/
def dropLeadingWS : List Char → List Char
  | [] => []
  | c :: tl => if c.isWhitespace then dropLeadingWS tl else c :: tl

/-- Python str.strip(): leading and trailing whitespace removed.  (The
whitespace set is the Lean Char.isWhitespace set; the extra vertical-tab and
form-feed characters of Python never occur in any modelled value.) -/
def pyStrip (s : String) : String :=
  String.mk ((dropLeadingWS ((dropLeadingWS s.data).reverse)).reverse)

/-- Embedding of validate_string_param from core/validation.py (the value is
known to be a string at every call site modelled here). -/
def validateStringParam (value : String) (minLength maxLength : Nat) :
    Except String String :=
  if value.length < minLength then .error "must be at least characters long"
  else if value.length > maxLength then .error "must be no more than characters long"
  else .ok (pyStrip value)

/-- Validation of an optional filter of _generate_audit_log_export: skipped
for a missing or falsy value, validate_string_param(1, 100) otherwise. -/
def validateOptFilter (v : Option String) : Except String (Option String) :=
  match v with
  | Option.none => .ok Option.none
  | some s =>
    if s = "" then .ok Option.none
    else
      match validateStringParam s 1 100 with
      | .error e => .error e
      | .ok t => .ok (some t)

/-- The export_data request body built by _generate_audit_log_export, as the
ordered key/value pairs of the POST payload.  The required from/to window is
validated with bounds 20 and 30; each optional filter is validated and then
added only when truthy after stripping.  The tenant UUID validity check is
abstracted into the uuidValid oracle.  No resourceId key exists anywhere in
this construction: the function has no resource filter parameter at all. -/
def generateExportBody (uuidValid : String → Bool)
    (tenantId startDate endDate source actorId action status : Option String) :
    Except String (List (String × String)) :=
  match
    (match tenantId with
     | Option.none => .ok Option.none
     | some t =>
       if t.length < 36 then .error "tenant_id appears to be truncated"
       else if uuidValid t then .ok (some t)
       else .error "tenant_id must be a valid UUID" : Except String (Option String)) with
  | .error e => .error e
  | .ok vTenant =>
    if (match startDate with | Option.none => true | some s => s == "") ||
       (match endDate with | Option.none => true | some s => s == "") then
      .error "start_date and end_date are required parameters"
    else
      match validateStringParam (startDate.getD "") 20 30 with
      | .error e => .error e
      | .ok vFrom =>
        match validateStringParam (endDate.getD "") 20 30 with
        | .error e => .error e
        | .ok vTo =>
          match validateOptFilter source with
          | .error e => .error e
          | .ok vSource =>
            match validateOptFilter actorId with
            | .error e => .error e
            | .ok vActor =>
              match validateOptFilter action with
              | .error e => .error e
              | .ok vAction =>
                match validateOptFilter status with
                | .error e => .error e
                | .ok vStatus =>
                  .ok ([("from", vFrom), ("to", vTo)]
                    ++ (match vTenant with
                        | some t => if t ≠ "" then [("tenantId", t)] else []
                        | Option.none => [])
                    ++ (match vSource with
                        | some s => if s ≠ "" then [("source", s)] else []
                        | Option.none => [])
                    ++ (match vActor with
                        | some s => if s ≠ "" then [("actorId", s)] else []
                        | Option.none => [])
                    ++ (match vAction with
                        | some s => if s ≠ "" then [("action", s)] else []
                        | Option.none => [])
                    ++ (match vStatus with
                        | some s => if s ≠ "" then [("status", s)] else []
                        | Option.none => []))

/-- Folding decimal digits from an arbitrary accumulator. -/
lemma digitsVal_foldl_from (a : Nat) (l : List Char) :
    l.foldl (fun n c => n * 10 + (c.toNat - 48)) a
      = a * 10 ^ l.length + digitsVal l := by
  induction l generalizing a with
  | nil => simp [digitsVal]
  | cons c tl ih =>
    simp only [List.foldl_cons, digitsVal, List.length_cons]
    rw [ih, ih (0 * 10 + (c.toNat - 48))]
    ring

/-- Expansion of digitsVal at a cons cell. -/
lemma digitsVal_cons (c : Char) (l : List Char) :
    digitsVal (c :: l) = (c.toNat - 48) * 10 ^ l.length + digitsVal l := by
  have h := digitsVal_foldl_from (0 * 10 + (c.toNat - 48)) l
  simp only [digitsVal] at h ⊢
  simp only [List.foldl_cons]
  rw [h]; ring

/-- Character codes of decimal digits. -/
lemma isDigit_toNat (c : Char) (h : c.isDigit = true) :
    48 ≤ c.toNat ∧ c.toNat ≤ 57 := by
  simp only [Char.isDigit, Bool.and_eq_true, decide_eq_true_eq] at h
  exact ⟨h.1, h.2⟩

/-- A digit list is bounded by the corresponding power of ten. -/
lemma digitsVal_lt (l : List Char) (h : l.all Char.isDigit = true) :
    digitsVal l < 10 ^ l.length := by
  induction l with
  | nil => simp [digitsVal]
  | cons c tl ih =>
    simp only [List.all_cons, Bool.and_eq_true] at h
    have hc := isDigit_toNat c h.1
    have htl := ih h.2
    rw [digitsVal_cons]
    have h9 : c.toNat - 48 ≤ 9 := by omega
    calc (c.toNat - 48) * 10 ^ tl.length + digitsVal tl
        ≤ 9 * 10 ^ tl.length + digitsVal tl := by
          have := Nat.mul_le_mul_right (10 ^ tl.length) h9
          omega
      _ < 10 ^ (tl.length + 1) := by
          have hp : 0 < 10 ^ tl.length := Nat.pos_pow_of_pos _ (by omega)
          rw [pow_succ]
          omega

/-- The rendered digit of a value below ten. -/
lemma digitChar_toNat (d : Nat) (h : d < 10) :
    (Char.ofNat (48 + d)).toNat = 48 + d := by
  interval_cases d <;> decide

/-- The rendered digit of a value below ten is a digit character. -/
lemma digitChar_isDigit (d : Nat) (h : d < 10) :
    (Char.ofNat (48 + d)).isDigit = true := by
  interval_cases d <;> decide

/-- digitsVal over an appended list. -/
lemma digitsVal_append (l1 l2 : List Char) :
    digitsVal (l1 ++ l2) = digitsVal l1 * 10 ^ l2.length + digitsVal l2 := by
  have h : digitsVal (l1 ++ l2)
      = l2.foldl (fun n c => n * 10 + (c.toNat - 48)) (digitsVal l1) := by
    simp [digitsVal, List.foldl_append]
  rw [h, digitsVal_foldl_from]

/-- Parsing a rendered natural number recovers it, and the rendering is all
digits. -/
lemma natDigitsAux_spec :
    ∀ fuel n, n ≤ fuel →
      digitsVal (natDigitsAux fuel n) = n
    ∧ (natDigitsAux fuel n).all Char.isDigit = true := by
  intro fuel
  induction fuel with
  | zero =>
    intro n hn
    have : n = 0 := by omega
    subst this
    simp [natDigitsAux, digitsVal]
  | succ fuel ih =>
    intro n hn
    by_cases h0 : n = 0
    · subst h0; simp [natDigitsAux, digitsVal]
    · have hdiv : n / 10 ≤ fuel := by
        have := Nat.div_lt_self (Nat.pos_of_ne_zero h0) (by omega : 1 < 10)
        omega
      have ihd := ih (n / 10) hdiv
      simp only [natDigitsAux, if_neg h0]
      constructor
      · rw [digitsVal_append, ihd.1]
        simp only [List.length_cons, List.length_nil, pow_one]
        have hc := digitChar_toNat (n % 10) (Nat.mod_lt _ (by omega))
        simp only [digitsVal, List.foldl_cons, List.foldl_nil]
        rw [hc]
        omega
      · simp only [List.all_append, ihd.2, Bool.true_and, List.all_cons, List.all_nil]
        have := digitChar_isDigit (n % 10) (Nat.mod_lt _ (by omega))
        simp [this]

/-- Length bound for the rendering of a bounded natural number. -/
lemma natDigitsAux_len :
    ∀ fuel n k, n ≤ fuel → n < 10 ^ k → (natDigitsAux fuel n).length ≤ k := by
  intro fuel
  induction fuel with
  | zero =>
    intro n k hn _
    have : n = 0 := by omega
    subst this
    simp [natDigitsAux]
  | succ fuel ih =>
    intro n k hn hk
    by_cases h0 : n = 0
    · subst h0; simp [natDigitsAux]
    · have hk1 : 1 ≤ k := by
        by_contra hc
        have : k = 0 := by omega
        subst this
        simp at hk
        omega
      obtain ⟨k2, rfl⟩ : ∃ k2, k = k2 + 1 := ⟨k - 1, by omega⟩
      have hdiv : n / 10 ≤ fuel := by
        have := Nat.div_lt_self (Nat.pos_of_ne_zero h0) (by omega : 1 < 10)
        omega
      have hdivk : n / 10 < 10 ^ k2 := by
        rw [Nat.div_lt_iff_lt_mul (by omega : 0 < 10)]
        calc n < 10 ^ (k2 + 1) := hk
          _ = 10 ^ k2 * 10 := by ring
      have := ih (n / 10) k2 hdiv hdivk
      simp only [natDigitsAux, if_neg h0, List.length_append, List.length_cons,
        List.length_nil]
      omega

/-- Specification of natToDigits. -/
lemma natToDigits_spec (n : Nat) :
    digitsVal (natToDigits n) = n ∧ (natToDigits n).all Char.isDigit = true := by
  by_cases h0 : n = 0
  · subst h0; constructor <;> decide
  · simp only [natToDigits, if_neg h0]
    exact natDigitsAux_spec n n (le_refl n)

/-- Length of natToDigits for a bounded value. -/
lemma natToDigits_len (n k : Nat) (hk : 1 ≤ k) (h : n < 10 ^ k) :
    (natToDigits n).length ≤ k := by
  by_cases h0 : n = 0
  · subst h0; simpa [natToDigits] using hk
  · simp only [natToDigits, if_neg h0]
    exact natDigitsAux_len n n k (le_refl n) h

/-- A block of zero characters parses to zero. -/
lemma digitsVal_replicate_zero_eq (p : Nat) :
    digitsVal (List.replicate p '0') = 0 := by
  induction p with
  | zero => simp [digitsVal]
  | succ p ih =>
    rw [List.replicate_succ, digitsVal_cons, ih]
    have h0 : '0'.toNat - 48 = 0 := by decide
    rw [h0]; ring

/-- Leading zeros do not change the parsed value. -/
lemma digitsVal_replicate_zero (p : Nat) (l : List Char) :
    digitsVal (List.replicate p '0' ++ l) = digitsVal l := by
  rw [digitsVal_append, digitsVal_replicate_zero_eq]; ring

/-- Quotient/remainder uniqueness for base decomposition. -/
lemma mul_pow_add_inj (B a1 a2 r1 r2 : Nat) (h1 : r1 < B) (h2 : r2 < B)
    (he : a1 * B + r1 = a2 * B + r2) : a1 = a2 ∧ r1 = r2 := by
  have hB : 0 < B := by omega
  have hd1 : (a1 * B + r1) / B = a1 := by
    rw [Nat.mul_comm a1 B, Nat.mul_add_div hB, Nat.div_eq_of_lt h1]
    omega
  have hd2 : (a2 * B + r2) / B = a2 := by
    rw [Nat.mul_comm a2 B, Nat.mul_add_div hB, Nat.div_eq_of_lt h2]
    omega
  have ha : a1 = a2 := by rw [← hd1, ← hd2, he]
  subst ha
  constructor
  · rfl
  · omega

/-- Characters agree when their code points agree. -/
lemma char_toNat_inj (c d : Char) (h : c.toNat = d.toNat) : c = d := by
  apply Char.ext
  exact UInt32.ext h

/-- Two digit strings of the same length with the same value are equal. -/
lemma digitsVal_inj :
    ∀ l1 l2 : List Char, l1.all Char.isDigit = true → l2.all Char.isDigit = true →
      l1.length = l2.length → digitsVal l1 = digitsVal l2 → l1 = l2 := by
  intro l1
  induction l1 with
  | nil =>
    intro l2 _ _ hlen _
    cases l2 with
    | nil => rfl
    | cons c tl => simp at hlen
  | cons c1 tl1 ih =>
    intro l2 h1 h2 hlen hv
    cases l2 with
    | nil => simp at hlen
    | cons c2 tl2 =>
      simp only [List.all_cons, Bool.and_eq_true] at h1 h2
      simp only [List.length_cons, Nat.succ_inj] at hlen
      rw [digitsVal_cons, digitsVal_cons, hlen] at hv
      have b1 := digitsVal_lt tl1 h1.2
      have b2 := digitsVal_lt tl2 h2.2
      rw [hlen] at b1
      have huniq := mul_pow_add_inj (10 ^ tl2.length) _ _ _ _ b1 b2 hv
      have hc1 := isDigit_toNat c1 h1.1
      have hc2 := isDigit_toNat c2 h2.1
      have hceq : c1 = c2 := by
        apply char_toNat_inj
        omega
      have hteq := ih tl2 h1.2 h2.2 hlen huniq.2
      rw [hceq, hteq]

/-- Zero-padded formatting of a bounded natural number: width, digits, and
value. -/
lemma pyFormat0_digits_spec (w n : Nat) (hw : 1 ≤ w) (h : n < 10 ^ w) :
    (pyFormat0 w (n : Int)).length = w
  ∧ (pyFormat0 w (n : Int)).all Char.isDigit = true
  ∧ digitsVal (pyFormat0 w (n : Int)) = n := by
  have hns : ¬((n : Int) < 0) := by omega
  have habs : ((n : Int)).natAbs = n := Int.natAbs_ofNat n
  simp only [pyFormat0, if_neg hns, habs, List.nil_append]
  have hlen := natToDigits_len n w hw h
  obtain ⟨hv, hdg⟩ := natToDigits_spec n
  refine ⟨?_, ?_, ?_⟩
  · simp only [List.length_append, List.length_replicate, List.length_nil]
    omega
  · simp only [List.all_append, Bool.and_eq_true, hdg, and_true]
    have : ∀ p : Nat, (List.replicate p '0').all Char.isDigit = true := by
      intro p
      induction p with
      | zero => decide
      | succ p ih => rw [List.replicate_succ]; simp [ih]
    exact this _
  · rw [digitsVal_replicate_zero, hv]

/-- Re-rendering a parsed fixed-width digit string reproduces it exactly. -/
lemma pyFormat0_roundtrip (cs : List Char) (hd : cs.all Char.isDigit = true)
    (hne : cs ≠ []) :
    pyFormat0 cs.length ((digitsVal cs : Nat) : Int) = cs := by
  have hw : 1 ≤ cs.length := by
    cases cs with
    | nil => exact absurd rfl hne
    | cons c tl => simp
  have hlt := digitsVal_lt cs hd
  obtain ⟨hl, hdg, hv⟩ := pyFormat0_digits_spec cs.length (digitsVal cs) hw hlt
  exact digitsVal_inj _ cs hdg hd (by rw [hl]) hv

/-- Digit characters are never the special characters of the date grammar. -/
lemma isDigit_ne (c : Char) (h : c.isDigit = true) :
    c ≠ 'T' ∧ c ≠ '/' ∧ c ≠ '-' ∧ c ≠ '+' := by
  obtain ⟨h1, h2⟩ := isDigit_toNat c h
  refine ⟨?_, ?_, ?_, ?_⟩ <;> (intro he; subst he; revert h1 h2; decide)

/-- Helper: equality tests on characters that are known digits. -/
lemma digit_beq_facts (c : Char) (h : c.isDigit = true) :
    (c == 'T') = false ∧ (c == '-') = false ∧ (c == '+') = false := by
  obtain ⟨hT, _, hm, hp⟩ := isDigit_ne c h
  exact ⟨beq_eq_false_iff_ne.mpr hT, beq_eq_false_iff_ne.mpr hm, beq_eq_false_iff_ne.mpr hp⟩

/-- Core of the date branch: when the slash-normalized input is a dashed
digit date, the normalizer re-renders it unchanged and appends the
start/end time suffix. -/
lemma convertL_date_core (cs : List Char) (b : Bool)
    (d1 d2 d3 d4 d5 d6 d7 d8 : Char)
    (h1 : d1.isDigit = true) (h2 : d2.isDigit = true) (h3 : d3.isDigit = true)
    (h4 : d4.isDigit = true) (h5 : d5.isDigit = true) (h6 : d6.isDigit = true)
    (h7 : d7.isDigit = true) (h8 : d8.isDigit = true)
    (hne : cs.isEmpty = false)
    (hT : containsC cs 'T' = false)
    (hmap : mapSlash cs = [d1, d2, d3, d4, '-', d5, d6, '-', d7, d8]) :
    convertL cs b = [d1, d2, d3, d4, '-', d5, d6, '-', d7, d8]
      ++ (if b then "T00:00:00Z".data else "T23:59:59Z".data) := by
  obtain ⟨n1T, n1s, n1m, n1p⟩ := isDigit_ne d1 h1
  obtain ⟨n2T, n2s, n2m, n2p⟩ := isDigit_ne d2 h2
  obtain ⟨n3T, n3s, n3m, n3p⟩ := isDigit_ne d3 h3
  obtain ⟨n4T, n4s, n4m, n4p⟩ := isDigit_ne d4 h4
  obtain ⟨n5T, n5s, n5m, n5p⟩ := isDigit_ne d5 h5
  obtain ⟨n6T, n6s, n6m, n6p⟩ := isDigit_ne d6 h6
  obtain ⟨n7T, n7s, n7m, n7p⟩ := isDigit_ne d7 h7
  obtain ⟨n8T, n8s, n8m, n8p⟩ := isDigit_ne d8 h8
  have r1 := pyFormat0_roundtrip [d1, d2, d3, d4] (by simp [h1, h2, h3, h4]) (by simp)
  have r2 := pyFormat0_roundtrip [d5, d6] (by simp [h5, h6]) (by simp)
  have r3 := pyFormat0_roundtrip [d7, d8] (by simp [h7, h8]) (by simp)
  simp only [List.length_cons, List.length_nil] at r1 r2 r3
  have hsplit : splitDash [d1, d2, d3, d4, '-', d5, d6, '-', d7, d8]
      = [[d1, d2, d3, d4], [d5, d6], [d7, d8]] := by
    simp [splitDash, n1m, n2m, n3m, n4m, n5m, n6m, n7m, n8m]
  have hy : pyInt? [d1, d2, d3, d4] = some ((digitsVal [d1, d2, d3, d4] : Nat) : Int) := by
    simp [pyInt?, n1m, n1p, h1, h2, h3, h4]
  have hmo : pyInt? [d5, d6] = some ((digitsVal [d5, d6] : Nat) : Int) := by
    simp [pyInt?, n5m, n5p, h5, h6]
  have hdy : pyInt? [d7, d8] = some ((digitsVal [d7, d8] : Nat) : Int) := by
    simp [pyInt?, n7m, n7p, h7, h8]
  rw [convertL, if_neg (by simp [hne]), if_neg (by simp [hT]), hmap, dateBranch]
  simp only [hsplit, List.length_cons, List.length_nil, hy, hmo, hdy,
    if_pos rfl]
  rw [r1, r2, r3]
  simp

/-- C6: for every 10-character input of shape YYYY-MM-DD or YYYY/MM/DD, the
date normalizer returns the slash-normalized dashed date suffixed with
T00:00:00Z when is_start_date is true and with T23:59:59Z when it is false. -/
theorem convert_date_day_window
    (d1 d2 d3 d4 d5 d6 d7 d8 sep : Char) (b : Bool)
    (h1 : d1.isDigit = true) (h2 : d2.isDigit = true) (h3 : d3.isDigit = true)
    (h4 : d4.isDigit = true) (h5 : d5.isDigit = true) (h6 : d6.isDigit = true)
    (h7 : d7.isDigit = true) (h8 : d8.isDigit = true)
    (hsep : sep = '-' ∨ sep = '/') :
    convertDateFormat (String.mk [d1, d2, d3, d4, sep, d5, d6, sep, d7, d8]) b
      = String.mk ([d1, d2, d3, d4, '-', d5, d6, '-', d7, d8]
          ++ (if b then "T00:00:00Z".data else "T23:59:59Z".data)) := by
  obtain ⟨n1T, n1s, _, _⟩ := isDigit_ne d1 h1
  obtain ⟨n2T, n2s, _, _⟩ := isDigit_ne d2 h2
  obtain ⟨n3T, n3s, _, _⟩ := isDigit_ne d3 h3
  obtain ⟨n4T, n4s, _, _⟩ := isDigit_ne d4 h4
  obtain ⟨n5T, n5s, _, _⟩ := isDigit_ne d5 h5
  obtain ⟨n6T, n6s, _, _⟩ := isDigit_ne d6 h6
  obtain ⟨n7T, n7s, _, _⟩ := isDigit_ne d7 h7
  obtain ⟨n8T, n8s, _, _⟩ := isDigit_ne d8 h8
  refine congrArg String.mk ?_
  show convertL [d1, d2, d3, d4, sep, d5, d6, sep, d7, d8] b = _
  apply convertL_date_core _ _ _ _ _ _ _ _ _ _ h1 h2 h3 h4 h5 h6 h7 h8
  · simp
  · rcases hsep with rfl | rfl <;>
      simp [containsC, beq_eq_false_iff_ne.mpr n1T, beq_eq_false_iff_ne.mpr n2T,
        beq_eq_false_iff_ne.mpr n3T, beq_eq_false_iff_ne.mpr n4T,
        beq_eq_false_iff_ne.mpr n5T, beq_eq_false_iff_ne.mpr n6T,
        beq_eq_false_iff_ne.mpr n7T, beq_eq_false_iff_ne.mpr n8T]
  · rcases hsep with rfl | rfl <;>
      simp [mapSlash, n1s, n2s, n3s, n4s, n5s, n6s, n7s, n8s]

/-- Witness for C6 at the concrete inputs of the spec example: normalizing
2025-04-01 as a start date yields 2025-04-01T00:00:00Z and as an end date
yields 2025-04-01T23:59:59Z. -/
theorem convert_date_day_window_witness :
    convertDateFormat "2025-04-01" true = "2025-04-01T00:00:00Z"
  ∧ convertDateFormat "2025-04-01" false = "2025-04-01T23:59:59Z" := by
  constructor
  · have h := convert_date_day_window '2' '0' '2' '5' '0' '4' '0' '1' '-' true
      (by decide) (by decide) (by decide) (by decide) (by decide) (by decide)
      (by decide) (by decide) (Or.inl rfl)
    exact h
  · have h := convert_date_day_window '2' '0' '2' '5' '0' '4' '0' '1' '-' false
      (by decide) (by decide) (by decide) (by decide) (by decide) (by decide)
      (by decide) (by decide) (Or.inl rfl)
    exact h

/-- Slash normalization is idempotent. -/
lemma mapSlash_idem (l : List Char) : mapSlash (mapSlash l) = mapSlash l := by
  induction l with
  | nil => rfl
  | cons c tl ih =>
    simp only [mapSlash, List.map_cons] at ih ⊢
    rw [ih]
    by_cases h : c = '/' <;> simp [h]

/-- Slash normalization preserves the presence of T. -/
lemma containsC_mapSlash_T (l : List Char) :
    containsC (mapSlash l) 'T' = containsC l 'T' := by
  induction l with
  | nil => rfl
  | cons c tl ih =>
    simp only [mapSlash, List.map_cons, containsC] at ih ⊢
    rw [ih]
    by_cases h : c = '/' <;> simp [h]

/-- containsC distributes over append. -/
lemma containsC_append (l1 l2 : List Char) (c : Char) :
    containsC (l1 ++ l2) c = (containsC l1 c || containsC l2 c) := by
  induction l1 with
  | nil => simp [containsC]
  | cons x tl ih => simp [containsC, ih, Bool.or_assoc]

/-- The slash-normalized list has no slash left. -/
lemma noSlash_mapSlash (l : List Char) : containsC (mapSlash l) '/' = false := by
  induction l with
  | nil => rfl
  | cons c tl ih =>
    simp only [mapSlash, List.map_cons, containsC] at ih ⊢
    rw [ih]
    by_cases h : c = '/' <;> simp [h]

/-- A slash-free list is unchanged by slash normalization. -/
lemma mapSlash_of_noSlash (l : List Char) (h : containsC l '/' = false) :
    mapSlash l = l := by
  induction l with
  | nil => rfl
  | cons c tl ih =>
    simp only [containsC, Bool.or_eq_false_iff] at h
    have hc : c ≠ '/' := by
      intro he
      rw [he] at h
      simp at h
    simp only [mapSlash, List.map_cons] at ih ⊢
    rw [ih h.2, if_neg hc]

/-- Prepending a character to a nonempty list keeps its last character. -/
lemma endsWithZ_cons (c : Char) (l : List Char) (h : l ≠ []) :
    endsWithZ (c :: l) = endsWithZ l := by
  cases l with
  | nil => exact absurd rfl h
  | cons x rest => simp only [endsWithZ, List.getLast?_cons_cons]

/-- Appending to a nonempty tail keeps its last character. -/
lemma endsWithZ_append (l1 l2 : List Char) (h : l2 ≠ []) :
    endsWithZ (l1 ++ l2) = endsWithZ l2 := by
  induction l1 with
  | nil => rfl
  | cons c tl ih =>
    have hne : tl ++ l2 ≠ [] := by
      intro he
      rcases List.append_eq_nil.mp he with ⟨_, h2⟩
      exact h h2
    rw [List.cons_append, endsWithZ_cons c _ hne, ih]

/-- Digit lists contain no slash. -/
lemma noSlash_of_digits (l : List Char) (h : l.all Char.isDigit = true) :
    containsC l '/' = false := by
  induction l with
  | nil => rfl
  | cons c tl ih =>
    simp only [List.all_cons, Bool.and_eq_true] at h
    obtain ⟨_, hs, _, _⟩ := isDigit_ne c h.1
    simp [containsC, ih h.2, beq_eq_false_iff_ne.mpr hs]

/-- Zero-padded renderings contain no slash. -/
lemma noSlash_pyFormat0 (w : Nat) (v : Int) :
    containsC (pyFormat0 w v) '/' = false := by
  have hdg := (natToDigits_spec v.natAbs).2
  have hz : containsC (List.replicate (w - ((natToDigits v.natAbs).length
      + (if v < 0 then ['-'] else ([] : List Char)).length)) '0' : List Char) '/' = false := by
    generalize (w - ((natToDigits v.natAbs).length
      + (if v < 0 then ['-'] else ([] : List Char)).length)) = p
    induction p with
    | zero => rfl
    | succ p ih => rw [List.replicate_succ]; simp [containsC, ih]
  simp only [pyFormat0, containsC_append, hz, noSlash_of_digits _ hdg,
    Bool.or_false, Bool.false_or]
  by_cases h : v < 0 <;> simp [h, containsC]

/-- Membership in the right part of an append. -/
lemma containsC_append_right (l1 l2 : List Char) (c : Char)
    (h : containsC l2 c = true) : containsC (l1 ++ l2) c = true := by
  rw [containsC_append, h, Bool.or_true]

/-- Membership in the left part of an append. -/
lemma containsC_append_left (l1 l2 : List Char) (c : Char)
    (h : containsC l1 c = true) : containsC (l1 ++ l2) c = true := by
  rw [containsC_append, h, Bool.true_or]

/-- A list containing a character is nonempty. -/
lemma ne_nil_of_containsC (cs : List Char) (c : Char) (h : containsC cs c = true) :
    cs ≠ [] := by
  intro he
  subst he
  simp [containsC] at h

/-- Fixed point of the normalizer: a slash-free input with a T and a
trailing Z is returned unchanged by the timestamp branch. -/
lemma convertL_fixed_of_T (cs : List Char) (b : Bool)
    (hT : containsC cs 'T' = true) (hs : containsC cs '/' = false)
    (hz : endsWithZ cs = true) : convertL cs b = cs := by
  have hne : cs.isEmpty = false := by
    cases cs with
    | nil => simp [containsC] at hT
    | cons _ _ => rfl
  rw [convertL, if_neg (by simp [hne]), if_pos hT]
  show (if endsWithZ (mapSlash cs) then mapSlash cs else mapSlash cs ++ ['Z']) = cs
  rw [mapSlash_of_noSlash cs hs, if_pos hz]

/-- The date branch either returns its input unchanged (for every flag), or
returns, for every flag, a normalized timestamp: slash-free, containing T,
ending in Z. -/
lemma dateBranch_cases (cs2 : List Char) :
    (∀ b, dateBranch cs2 b = cs2)
  ∨ (∀ b, containsC (dateBranch cs2 b) 'T' = true
        ∧ containsC (dateBranch cs2 b) '/' = false
        ∧ endsWithZ (dateBranch cs2 b) = true) := by
  by_cases hl : cs2.length = 10
  case neg =>
    left
    intro b
    rw [dateBranch, if_neg hl]
  case pos =>
    rcases hsp : splitDash cs2 with _ | ⟨y, _ | ⟨m, _ | ⟨d, _ | ⟨e, rest⟩⟩⟩⟩
    · left; intro b; rw [dateBranch, if_pos hl, hsp]
    · left; intro b; rw [dateBranch, if_pos hl, hsp]
    · left; intro b; rw [dateBranch, if_pos hl, hsp]
    · rcases hy : pyInt? y with _ | yi
      · left; intro b; rw [dateBranch, if_pos hl, hsp]; simp [hy]
      · rcases hm : pyInt? m with _ | mi
        · left; intro b; rw [dateBranch, if_pos hl, hsp]; simp [hy, hm]
        · rcases hd : pyInt? d with _ | di
          · left; intro b; rw [dateBranch, if_pos hl, hsp]; simp [hy, hm, hd]
          · right
            intro b
            rw [dateBranch, if_pos hl, hsp]
            simp only [hy, hm, hd]
            have hsuf : (if b then "T00:00:00Z".data else "T23:59:59Z".data) ≠ []
                ∧ containsC (if b then "T00:00:00Z".data else "T23:59:59Z".data) 'T' = true
                ∧ containsC (if b then "T00:00:00Z".data else "T23:59:59Z".data) '/' = false
                ∧ endsWithZ (if b then "T00:00:00Z".data else "T23:59:59Z".data) = true := by
              cases b <;> exact ⟨by decide, by decide, by decide, by decide⟩
            refine ⟨?_, ?_, ?_⟩
            · simp [containsC, containsC_append, hsuf.2.1]
            · simp [containsC, containsC_append, noSlash_pyFormat0, hsuf.2.2.1]
            · rw [endsWithZ_append _ _ hsuf.1]
              exact hsuf.2.2.2
    · left; intro b; rw [dateBranch, if_pos hl, hsp]

/-- Idempotence of the character-level normalizer, for any pair of role
flags. -/
lemma convertL_idem (cs : List Char) (b1 b2 : Bool) :
    convertL (convertL cs b1) b2 = convertL cs b1 := by
  by_cases he : cs.isEmpty
  case pos =>
    have : cs = [] := by
      cases cs with
      | nil => rfl
      | cons _ _ => simp at he
    subst this
    rfl
  case neg =>
    by_cases hT : containsC cs 'T' = true
    case pos =>
      have hout : convertL cs b1
          = (if endsWithZ (mapSlash cs) then mapSlash cs else mapSlash cs ++ ['Z']) := by
        rw [convertL, if_neg he, if_pos hT]
      rw [hout]
      by_cases hz : endsWithZ (mapSlash cs) = true
      case pos =>
        rw [if_pos hz]
        exact convertL_fixed_of_T _ _ (by rw [containsC_mapSlash_T]; exact hT)
          (noSlash_mapSlash cs) hz
      case neg =>
        rw [if_neg hz]
        refine convertL_fixed_of_T _ _ ?_ ?_ ?_
        · exact containsC_append_left _ _ _ (by rw [containsC_mapSlash_T]; exact hT)
        · rw [containsC_append, noSlash_mapSlash cs]
          decide
        · rw [endsWithZ_append _ _ (by simp)]
          decide
    case neg =>
      have hout : convertL cs b1 = dateBranch (mapSlash cs) b1 := by
        rw [convertL, if_neg he, if_neg hT]
      rw [hout]
      rcases dateBranch_cases (mapSlash cs) with hfix | hnorm
      case inl =>
        rw [hfix b1]
        have hne2 : (mapSlash cs).isEmpty = false := by
          cases cs with
          | nil => simp at he
          | cons _ _ => rfl
        have hT2 : containsC (mapSlash cs) 'T' = false := by
          rw [containsC_mapSlash_T]
          simpa using hT
        rw [convertL, if_neg (by simp [hne2]), if_neg (by simp [hT2]),
          mapSlash_idem, hfix b2]
      case inr =>
        obtain ⟨hTn, hsn, hzn⟩ := hnorm b1
        exact convertL_fixed_of_T _ _ hTn hsn hzn

/-- C7 counterexample: a string that contains T and ends in Z but still
contains slashes is not a fixed point of the normalizer, refuting the
claimed fixed-point clause as stated. -/
theorem convert_date_idem_counterexample :
    containsC "2025/04/01T00:00:00Z".data 'T' = true
  ∧ endsWithZ "2025/04/01T00:00:00Z".data = true
  ∧ convertDateFormat "2025/04/01T00:00:00Z" true ≠ "2025/04/01T00:00:00Z"
  ∧ convertDateFormat "2025/04/01T00:00:00Z" true = "2025-04-01T00:00:00Z" := by
  refine ⟨by decide, by decide, by decide, by decide⟩

/-- C7 amended: normalization is idempotent for every string and every pair
of role flags, and every string that contains T, ends in Z and contains no
slash (rather than every string containing T and ending in Z) is a fixed
point of the normalizer. -/
theorem convert_date_idempotent :
    (∀ (s : String) (b1 b2 : Bool),
        convertDateFormat (convertDateFormat s b1) b2 = convertDateFormat s b1)
  ∧ (∀ (s : String) (b : Bool),
        containsC s.data 'T' = true → endsWithZ s.data = true →
        containsC s.data '/' = false → convertDateFormat s b = s) := by
  constructor
  · intro s b1 b2
    exact congrArg String.mk (convertL_idem s.data b1 b2)
  · intro s b hT hz hs
    show String.mk (convertL s.data b) = s
    rw [convertL_fixed_of_T s.data b hT hs hz]

/-- Witness for C7: the amended theorem applied at concrete inputs. -/
theorem convert_date_idempotent_witness :
    convertDateFormat (convertDateFormat "2025/04/01" true) false
      = convertDateFormat "2025/04/01" true
  ∧ convertDateFormat "2025-04-01T10:20:30Z" false = "2025-04-01T10:20:30Z" := by
  constructor
  · exact convert_date_idempotent.1 "2025/04/01" true false
  · exact convert_date_idempotent.2 "2025-04-01T10:20:30Z" false (by decide)
      (by decide) (by decide)

/-- C5: when the input is not a 36-character hyphenated UUID, a
case-sensitive exact name match wins: the resolver returns the canonical id
of the first instance whose name equals the input exactly, and the
case-insensitive fallback is never consulted. -/
theorem resolve_exact_match_precedence
    (uuidValid : String → Bool) (instances : List ServiceInstanceR)
    (ident uid : String)
    (hnz : ident ≠ "")
    (hnu : ¬(ident.length = 36 ∧ containsC ident.data '-' = true ∧ uuidValid ident = true))
    (inst : ServiceInstanceR)
    (hfind : instances.find? (fun i => i.name == some ident) = some inst)
    (hid : inst.service_id = some uid) (hne : uid ≠ "") :
    resolveServiceIdentifier uuidValid instances ident = .ok uid := by
  have hbu : ¬((ident.length = 36 && containsC ident.data '-' && uuidValid ident) = true) := by
    simp only [Bool.and_eq_true, decide_eq_true_eq]
    intro h
    exact hnu ⟨h.1.1, h.1.2, h.2⟩
  rw [resolveServiceIdentifier, if_neg hnz, if_neg hbu, hfind]
  show extractServiceId ident inst = .ok uid
  rw [extractServiceId, hid]
  show (if uid = "" then _ else Except.ok uid) = Except.ok uid
  rw [if_neg hne]

/-- Witness for C5 at the spec scenario: instances named svc (id B) and Svc
(id A); resolving Svc returns A, the id of the exact-case match, and never B. -/
theorem resolve_exact_match_precedence_witness :
    resolveServiceIdentifier (fun _ => false)
      [⟨some "svc", some "B", Option.none, Option.none⟩,
       ⟨some "Svc", some "A", Option.none, Option.none⟩] "Svc" = .ok "A"
  ∧ ("A" : String) ≠ "B" := by
  constructor
  · exact resolve_exact_match_precedence (fun _ => false) _ "Svc" "A"
      (by decide) (by intro h; exact absurd h.1 (by decide))
      ⟨some "Svc", some "A", Option.none, Option.none⟩ rfl rfl (by decide)
  · decide

/-- A trace that always reports an ACTIVE job makes the wait loop return
None at every fuel and start index. -/
lemma waitGo_active_none (poll : Nat → PollStep) (maxWait : Nat)
    (h : ∀ k, poll k = .resp 200 (some "ACTIVE") Option.none) :
    ∀ fuel k, waitGo poll maxWait fuel k = Option.none := by
  intro fuel
  induction fuel with
  | zero => intro k; rfl
  | succ fuel ih =>
    intro k
    rw [waitGo]
    by_cases hg : 10 * k < maxWait
    · rw [if_pos hg, h k]
      simpa using ih (k + 1)
    · rw [if_neg hg]

/-- C2 counterexample: at the explicit poll traces that stay ACTIVE for the
whole 300-second budget and that report FAILED at once, the run produces the
same absent URL and the same workflow failure value, so the caller cannot
distinguish a timeout from a remote job failure. -/
theorem wait_timeout_conflated_counterexample :
    waitForExportCompletion (fun _ => .resp 200 (some "ACTIVE") Option.none) 300
      = waitForExportCompletion (fun _ => .resp 200 (some "FAILED") Option.none) 300
  ∧ workflowWaitStage (fun _ => .resp 200 (some "ACTIVE") Option.none) 300
      = workflowWaitStage (fun _ => .resp 200 (some "FAILED") Option.none) 300
  ∧ waitForExportCompletion (fun _ => .resp 200 (some "ACTIVE") Option.none) 300
      = Option.none := by
  refine ⟨rfl, rfl, rfl⟩

/-- C2 amended: a job that never leaves ACTIVE within the budget yields no
URL, and the workflow reports the single combined failure dict, identical to
the one produced by a remote FAILED job; the two outcomes are conflated, not
distinguished. -/
theorem wait_timeout_amended (poll : Nat → PollStep)
    (h : ∀ k, poll k = .resp 200 (some "ACTIVE") Option.none) :
    waitForExportCompletion poll 300 = Option.none
  ∧ workflowWaitStage poll 300 = .error waitFailureDict
  ∧ workflowWaitStage (fun _ => .resp 200 (some "FAILED") Option.none) 300
      = .error waitFailureDict := by
  have hw : waitForExportCompletion poll 300 = Option.none :=
    waitGo_active_none poll 300 h _ 0
  refine ⟨hw, ?_, rfl⟩
  rw [workflowWaitStage, hw]

/-- Witness for C2 at the constant ACTIVE trace. -/
theorem wait_timeout_amended_witness :
    waitForExportCompletion (fun _ => .resp 200 (some "ACTIVE") Option.none) 300
      = Option.none := by
  exact (wait_timeout_amended (fun _ => .resp 200 (some "ACTIVE") Option.none)
    (fun _ => rfl)).1

/-- After any prefix of raised polls, a non-200 status response ends the wait
with no URL while budget remains. -/
lemma waitGo_exn_skip_abort (poll : Nat → PollStep) (mw : Nat) :
    ∀ fuel k0 k c st loc, k0 ≤ k →
      (∀ j, k0 ≤ j → j < k → poll j = .exn) →
      poll k = .resp c st loc → c ≠ 200 → 10 * k < mw →
      mw < 10 * k0 + 10 * fuel →
      waitGo poll mw fuel k0 = Option.none := by
  intro fuel
  induction fuel with
  | zero =>
    intro k0 k c st loc hk0 _ _ _ hbud hfuel
    omega
  | succ fuel ih =>
    intro k0 k c st loc hk0 hexn hpoll hc hbud hfuel
    rw [waitGo, if_pos (by omega)]
    by_cases heq : k0 = k
    · subst heq
      rw [hpoll]
      simp [hc]
    · have hlt : k0 < k := by omega
      rw [hexn k0 (le_refl k0) hlt]
      exact ih (k0 + 1) k c st loc (by omega)
        (fun j hj1 hj2 => hexn j (by omega) hj2) hpoll hc hbud (by omega)

/-- C3 counterexample: a 500 response on the first poll ends the run with no
URL even though the next poll would report SUCCEEDED with a location and
budget remains, refuting the claim that a non-2xx response is retried and
that only a terminal state or budget exhaustion ends the loop. -/
theorem wait_non200_counterexample :
    waitForExportCompletion (fun k =>
        if k = 0 then .resp 500 Option.none Option.none
        else .resp 200 (some "SUCCEEDED") (some "https://example/export")) 300
      = Option.none
  ∧ waitForExportCompletion (fun k =>
        if k = 0 then .resp 500 Option.none Option.none
        else .resp 200 (some "SUCCEEDED") (some "https://example/export")) 300
      ≠ some "https://example/export" := by
  refine ⟨rfl, by decide⟩

/-- C3 amended: during the wait loop only a raised poll exception backs off
and re-polls; a non-200 status response is not retried but ends the run
immediately with no URL, even with budget remaining. -/
theorem wait_non200_aborts (poll : Nat → PollStep) (mw k c : Nat)
    (st loc : Option String)
    (hexn : ∀ j, j < k → poll j = .exn)
    (hpoll : poll k = .resp c st loc) (hc : c ≠ 200) (hbud : 10 * k < mw) :
    waitForExportCompletion poll mw = Option.none := by
  exact waitGo_exn_skip_abort poll mw (mw + 1) 0 k c st loc (Nat.zero_le k)
    (fun j _ hj => hexn j hj) hpoll hc hbud (by omega)

/-- Witness for C3: one raised poll, then a 500 response, inside a
300-second budget. -/
theorem wait_non200_aborts_witness :
    waitForExportCompletion (fun k =>
      if k = 0 then .exn else .resp 500 Option.none Option.none) 300
      = Option.none := by
  refine wait_non200_aborts (fun k =>
    if k = 0 then .exn else .resp 500 Option.none Option.none)
    300 1 500 Option.none Option.none ?_ rfl (by decide) (by decide)
  intro j hj
  have : j = 0 := by omega
  subst this
  rfl

/-- Steps 2-3 of _get_audit_logs_complete_workflow on the service_name path:
the detected source is forwarded to export generation, while the detected
resource id is bound but never forwarded, because _generate_audit_log_export
has no resource parameter and its body never contains a resourceId key. -/
def workflowExportBody (uuidValid : String → Bool)
    (detectResult : Option (Option String × String))
    (tenantId startDate endDate actorId action status : Option String) :
    Except String (List (String × String)) :=
  match detectResult with
  | Option.none => .error "Could not find service with name"
  | some (source, _resourceId) =>
    generateExportBody uuidValid tenantId startDate endDate source actorId action status

/-- The export body for a run with no tenant, no source and no optional
filters, and a valid from/to window: exactly the two window keys. -/
lemma generateExportBody_window_only (uuidValid : String → Bool) (s e : String)
    (hs1 : 20 ≤ s.length) (hs2 : s.length ≤ 30)
    (he1 : 20 ≤ e.length) (he2 : e.length ≤ 30) :
    generateExportBody uuidValid Option.none (some s) (some e)
      Option.none Option.none Option.none Option.none
      = .ok [("from", pyStrip s), ("to", pyStrip e)] := by
  have hsne : (s == "") = false := by
    apply beq_eq_false_iff_ne.mpr
    intro heq
    subst heq
    simp at hs1
  have hene : (e == "") = false := by
    apply beq_eq_false_iff_ne.mpr
    intro heq
    subst heq
    simp at he1
  rw [generateExportBody]
  simp only [hsne, hene, Bool.or_false, Bool.false_or, if_false, Option.getD_some]
  rw [if_neg (by simp)]
  rw [validateStringParam, if_neg (by omega), if_neg (by omega)]
  rw [validateStringParam, if_neg (by omega), if_neg (by omega)]
  show Except.ok ([("from", pyStrip s), ("to", pyStrip e)] ++ [] ++ [] ++ [] ++ [] ++ []) = _
  simp

/-- C9 amended: the detected source is the reserved cdsp token for the
ctaas type, the synthesized thales/cloudhsm path for a truthy partition
serial, and None otherwise; in the None case the submitted export body
contains only the from/to window, with neither a source key nor any
resource-id key (the resolved resource id is dropped, not used as a filter). -/
theorem detect_source_rules (services : List ServiceInstanceR)
    (resolvedId : String) (target : ServiceInstanceR)
    (hfind : services.find? (fun st => st.service_id == some resolvedId) = some target) :
    (target.serviceType = some "ctaas" →
       detectServiceDetails 200 services resolvedId = some (some "cdsp", resolvedId))
  ∧ (target.serviceType ≠ some "ctaas" →
       ∀ serial, target.partition_serial_number = some serial → serial ≠ "" →
       detectServiceDetails 200 services resolvedId
         = some (some ("thales/cloudhsm/" ++ serial), resolvedId))
  ∧ (target.serviceType ≠ some "ctaas" →
       target.partition_serial_number = Option.none →
       detectServiceDetails 200 services resolvedId = some (Option.none, resolvedId)
     ∧ ∀ (uuidValid : String → Bool) (s e : String),
         20 ≤ s.length → s.length ≤ 30 → 20 ≤ e.length → e.length ≤ 30 →
         workflowExportBody uuidValid
             (detectServiceDetails 200 services resolvedId)
             Option.none (some s) (some e) Option.none Option.none Option.none
           = .ok [("from", pyStrip s), ("to", pyStrip e)]) := by
  refine ⟨?_, ?_, ?_⟩
  · intro hct
    rw [detectServiceDetails, if_neg (by decide), hfind]
    simp [hct]
  · intro hne serial hser hsne
    rw [detectServiceDetails, if_neg (by decide), hfind]
    simp [hne, hser, hsne]
  · intro hne hpart
    have hdet : detectServiceDetails 200 services resolvedId
        = some (Option.none, resolvedId) := by
      rw [detectServiceDetails, if_neg (by decide), hfind]
      simp [hne, hpart]
    refine ⟨hdet, ?_⟩
    intro uuidValid s e hs1 hs2 he1 he2
    rw [hdet]
    show generateExportBody uuidValid Option.none (some s) (some e)
      Option.none Option.none Option.none Option.none = _
    exact generateExportBody_window_only uuidValid s e hs1 hs2 he1 he2

/-- C9 counterexample: for a service that is neither ctaas nor carries a
partition serial, the detected source is None and the export body submitted
by the workflow is exactly the from/to window; it mentions no resourceId or
source key and never the resolved resource id, refuting the claimed
fallback to resource-id-only filtering. -/
theorem detect_resource_fallback_counterexample :
    detectServiceDetails 200
        [⟨some "MyService", some "svc-123", some "hsm", Option.none⟩] "svc-123"
      = some (Option.none, "svc-123")
  ∧ workflowExportBody (fun _ => true)
      (detectServiceDetails 200
        [⟨some "MyService", some "svc-123", some "hsm", Option.none⟩] "svc-123")
      Option.none (some "2025-04-01T00:00:00Z") (some "2025-04-30T23:59:59Z")
      Option.none Option.none Option.none
      = .ok [("from", "2025-04-01T00:00:00Z"), ("to", "2025-04-30T23:59:59Z")]
  ∧ (([("from", "2025-04-01T00:00:00Z"), ("to", "2025-04-30T23:59:59Z")] :
        List (String × String)).any (fun kv =>
          kv.1 == "resourceId" || kv.1 == "source" || kv.2 == "svc-123")) = false := by
  refine ⟨rfl, rfl, by decide⟩

/-- Witness for C9 at a concrete ctaas service. -/
theorem detect_source_rules_witness :
    detectServiceDetails 200
        [⟨some "S", some "id-1", some "ctaas", Option.none⟩] "id-1"
      = some (some "cdsp", "id-1") :=
  (detect_source_rules [⟨some "S", some "id-1", some "ctaas", Option.none⟩] "id-1"
    ⟨some "S", some "id-1", some "ctaas", Option.none⟩ rfl).1 rfl

/-- Round trip of dict entries. -/
lemma entries_ofEntries (l : List (PyVal × PyVal)) :
    (PyDict.ofEntries l).entries = l := by
  induction l with
  | nil => rfl
  | cons p tl ih =>
    obtain ⟨k, v⟩ := p
    simp [PyDict.ofEntries, PyDict.entries, ih]

/-- The all_actions dict of a built summary is exactly the annotated
histogram. -/
lemma allActionsOf_buildSummary (logs : List PyVal) (st : AnaSt)
    (sortedActions : List (PyVal × PyVal)) (ss srcs : List (PyVal × Nat)) :
    allActionsOf (buildSummary logs st sortedActions ss srcs)
      = PyDict.ofEntries (actionSummaryEntries st.actions) := by
  rfl

/-- C8 counterexample: a record whose action Create Key is a known
data-platform (CTAAS) operation name still gets a count-only entry with no
description, because the analyzer consults only the LUNA table. -/
theorem action_description_counterexample :
    assocHasKey CTAAS_ACTION_DESCRIPTIONS "Create Key" = true
  ∧ (allActionsOf (analyzeAuditLogs
        [.record (.dict (strDict [("action", .str "Create Key")]))])).getV?
          (.str "Create Key")
      = some (.dict (.cons (.str "count") (.int 1) .nil))
  ∧ (match (allActionsOf (analyzeAuditLogs
        [.record (.dict (strDict [("action", .str "Create Key")]))])).getV?
          (.str "Create Key") with
     | some (.dict e) => e.hasKey "description"
     | _ => true) = false := by
  refine ⟨by decide, rfl, rfl⟩

/-- C8 amended: every action entry of a summary carries its LUNA table
description when the action is a known hardware-module (LUNA) code, and a
count only otherwise; known data-platform (CTAAS/CDSP) names receive no
description, since the analyzer never consults that table. -/
theorem action_description_rules (lines : List SrcLine) (k v : PyVal)
    (hmem : (k, v) ∈ (allActionsOf (analyzeAuditLogs lines)).entries) :
    ∃ c : Nat,
      (lunaLookup k = Option.none
        ∧ v = .dict (.cons (.str "count") (.int c) .nil))
    ∨ (∃ d, lunaLookup k = some d
        ∧ v = .dict (.cons (.str "count") (.int c)
            (.cons (.str "description") (.str d) .nil))) := by
  rw [analyzeAuditLogs] at hmem
  rcases hcore : analyzeCore (parsedRecords lines) with e | d
  case error =>
    simp only [hcore] at hmem
    simp [analyzeErrorDict, allActionsOf, strDict, PyDict.get?, PyDict.entries] at hmem
  case ok =>
    simp only [hcore] at hmem
    rw [analyzeCore] at hcore
    by_cases hemp : (parsedRecords lines).isEmpty
    · rw [if_pos hemp] at hcore
      cases hcore
      simp [noLogsDict, allActionsOf, strDict, PyDict.get?, PyDict.entries] at hmem
    · rw [if_neg hemp] at hcore
      rcases hrun : runLoop (parsedRecords lines) ⟨[], [], [], .none, .none⟩ with e2 | st
      · simp only [hrun] at hcore
        simp at hcore
      · simp only [hrun] at hcore
        rcases hsa : sortDescBy (fun p => pySubscriptS p.2 "count")
            (actionSummaryEntries st.actions) with e3 | sa
        · simp only [hsa] at hcore
          simp at hcore
        · simp only [hsa] at hcore
          rcases hss : sortPairsByKey st.statuses with e4 | ss
          · simp only [hss] at hcore
            simp at hcore
          · simp only [hss] at hcore
            rcases hsrc : sortPairsByKey st.sources with e5 | srcs
            · simp only [hsrc] at hcore
              simp at hcore
            · simp only [hsrc, Except.ok.injEq] at hcore
              subst hcore
              rw [allActionsOf_buildSummary, entries_ofEntries] at hmem
              simp only [actionSummaryEntries, List.mem_map] at hmem
              obtain ⟨⟨a, c⟩, _, heq⟩ := hmem
              have hk : a = k := congrArg Prod.fst heq
              have hv : annotateAction a c = v := congrArg Prod.snd heq
              refine ⟨c, ?_⟩
              rw [← hk, ← hv]
              rcases hl : lunaLookup a with _ | dsc
              · left
                exact ⟨rfl, by rw [annotateAction, hl]⟩
              · right
                exact ⟨dsc, rfl, by rw [annotateAction, hl]⟩

/-- Witness for C8: a LUNA action gets its description, an unknown action a
count only. -/
theorem action_description_rules_witness :
    ∃ c : Nat,
      (lunaLookup (.str "LUNA_LOGIN") = Option.none
        ∧ PyVal.dict (.cons (.str "count") (.int 1)
            (.cons (.str "description") (.str "Logs in to a token") .nil))
          = .dict (.cons (.str "count") (.int c) .nil))
    ∨ (∃ d, lunaLookup (.str "LUNA_LOGIN") = some d
        ∧ PyVal.dict (.cons (.str "count") (.int 1)
            (.cons (.str "description") (.str "Logs in to a token") .nil))
          = .dict (.cons (.str "count") (.int c)
              (.cons (.str "description") (.str d) .nil))) := by
  apply action_description_rules
    [.record (.dict (strDict [("action", .str "LUNA_LOGIN")]))]
    (.str "LUNA_LOGIN")
    (.dict (.cons (.str "count") (.int 1)
      (.cons (.str "description") (.str "Logs in to a token") .nil)))
  have he : (allActionsOf (analyzeAuditLogs
      [.record (.dict (strDict [("action", .str "LUNA_LOGIN")]))])).entries
      = [(PyVal.str "LUNA_LOGIN", PyVal.dict (.cons (.str "count") (.int 1)
          (.cons (.str "description") (.str "Logs in to a token") .nil)))] := rfl
  rw [he]
  exact List.mem_singleton.mpr rfl

/-- A list is a prefix of itself extended. -/
lemma isPrefixOf_append_self (l r : List Char) : l.isPrefixOf (l ++ r) = true := by
  induction l with
  | nil => simp [List.isPrefixOf]
  | cons a tl ih => simp [List.isPrefixOf, ih]

/-- A string starts with any of its literal prefixes. -/
lemma strStartsWith_append_self (pre rest : String) :
    strStartsWith (pre ++ rest) pre = true := by
  rw [strStartsWith, String.data_append]
  exact isPrefixOf_append_self _ _

/-- C10: the narrative formatter is total (String-valued) over arbitrary
analysis dicts and follows the source cascade: an empty dict or an error key
yields a string beginning with Error:, otherwise a zero total_logs yields the
fixed no-logs message, and any exception inside the body is caught and
rendered with the Error formatting summary: prefix. -/
theorem formatter_total_cascade (d : PyDict) :
    ((pyTruthy (.dict d) = false ∨ d.hasKey "error" = true) →
       strStartsWith (formatAuditSummary d) "Error:" = true)
  ∧ (pyTruthy (.dict d) = true → d.hasKey "error" = false →
       pyEqKey (d.getD "total_logs" (.int 0)) (.int 0) = true →
       formatAuditSummary d = "No audit logs found in the specified time range")
  ∧ (∀ e, formatBody d = .error e →
       formatAuditSummary d = "Error formatting summary: " ++ e
     ∧ strStartsWith (formatAuditSummary d) "Error formatting summary:" = true) := by
  refine ⟨?_, ?_, ?_⟩
  · intro h
    have hb : formatBody d
        = .ok ("Error: " ++ pyStr (d.getD "error" (.str "Unknown error"))) := by
      rw [formatBody]
      rcases h with h | h
      · rw [if_pos (by simp [h])]
      · rw [if_pos (by simp [h])]
    simp only [formatAuditSummary, hb]
    have hsplit : "Error: " ++ pyStr (d.getD "error" (.str "Unknown error"))
        = "Error:" ++ (" " ++ pyStr (d.getD "error" (.str "Unknown error"))) := by
      rw [← String.append_assoc]
      rfl
    rw [hsplit]
    exact strStartsWith_append_self _ _
  · intro h1 h2 h3
    have hb : formatBody d
        = .ok "No audit logs found in the specified time range" := by
      simp only [formatBody]
      rw [if_neg (by simp [h1, h2]), if_pos h3]
    simp only [formatAuditSummary, hb]
  · intro e he
    have hf : formatAuditSummary d = "Error formatting summary: " ++ e := by
      simp only [formatAuditSummary, he]
    refine ⟨hf, ?_⟩
    rw [hf]
    have hsplit : "Error formatting summary: " ++ e
        = "Error formatting summary:" ++ (" " ++ e) := by
      rw [← String.append_assoc]
      rfl
    rw [hsplit]
    exact strStartsWith_append_self _ _

/-- Witness for C10 at the empty dict and at a dict with an error key. -/
theorem formatter_total_cascade_witness :
    strStartsWith (formatAuditSummary PyDict.nil) "Error:" = true
  ∧ formatAuditSummary (strDict [("total_logs", .int 0)])
      = "No audit logs found in the specified time range" := by
  constructor
  · exact (formatter_total_cascade PyDict.nil).1 (Or.inl rfl)
  · exact (formatter_total_cascade (strDict [("total_logs", .int 0)])).2.1
      rfl rfl rfl

/-- One fixture record of the C1 end-to-end scenario. -/
def fixtureRecord (t a s : String) : SrcLine :=
  .record (.dict (strDict
    [("time", .str t), ("action", .str a), ("status", .str s), ("source", .str "cdsp")]))

/-- The C1 fixture export file: 12 records, 10 Create Key / success and
2 Delete User / failure, all from the cdsp source inside April 2025. -/
def fixtureLines : List SrcLine :=
  [fixtureRecord "2025-04-01T01:00:00Z" "Create Key" "success",
   fixtureRecord "2025-04-02T01:00:00Z" "Create Key" "success",
   fixtureRecord "2025-04-03T01:00:00Z" "Create Key" "success",
   fixtureRecord "2025-04-04T01:00:00Z" "Create Key" "success",
   fixtureRecord "2025-04-05T01:00:00Z" "Create Key" "success",
   fixtureRecord "2025-04-06T01:00:00Z" "Create Key" "success",
   fixtureRecord "2025-04-07T01:00:00Z" "Create Key" "success",
   fixtureRecord "2025-04-08T01:00:00Z" "Create Key" "success",
   fixtureRecord "2025-04-09T01:00:00Z" "Create Key" "success",
   fixtureRecord "2025-04-10T01:00:00Z" "Create Key" "success",
   fixtureRecord "2025-04-11T01:00:00Z" "Delete User" "failure",
   fixtureRecord "2025-04-12T01:00:00Z" "Delete User" "failure"]

/-- The count stored for an action of a summary. -/
def actionCountOf (d : PyDict) (a : String) : Option PyVal :=
  match (allActionsOf d).getV? (.str a) with
  | some (.dict e) => e.get? "count"
  | _ => Option.none

/-- The count stored for a status of a summary. -/
def statusCountOf (d : PyDict) (s : String) : Option PyVal :=
  match d.get? "status_summary" with
  | some (.dict ss) =>
    match ss.get? "status_breakdown" with
    | some (.dict sb) => sb.getV? (.str s)
    | _ => Option.none
  | _ => Option.none

/-- C1: evaluation of the pipeline at the fixture.  The analysis is right
(12 total logs, 10 Create Key, 2 failure) but the formatted summary is the
caught-KeyError string, because the formatter reads details["description"]
although the analyzer deliberately stores no description for non-LUNA
actions; the summary is nonempty yet does not contain Create Key, so the
end-to-end claim fails on the formatted_summary conjunct. -/
theorem fixture_pipeline_evaluation :
    totalLogsOf (analyzeAuditLogs fixtureLines) = 12
  ∧ actionCountOf (analyzeAuditLogs fixtureLines) "Create Key" = some (.int 10)
  ∧ statusCountOf (analyzeAuditLogs fixtureLines) "failure" = some (.int 2)
  ∧ formatAuditSummary (analyzeAuditLogs fixtureLines)
      = "Error formatting summary: " ++ sqc ++ "description" ++ sqc
  ∧ formatAuditSummary (analyzeAuditLogs fixtureLines) ≠ ""
  ∧ strContains (formatAuditSummary (analyzeAuditLogs fixtureLines)) "Create Key"
      = false := by
  refine ⟨rfl, rfl, rfl, rfl, by decide, by decide⟩

/-- Total of a histogram. -/
def sumNat : List (PyVal × Nat) → Nat
  | [] => 0
  | (_, c) :: tl => c + sumNat tl

/-- One bump adds exactly one to the histogram total. -/
lemma sumNat_bump (k : PyVal) (h : List (PyVal × Nat)) :
    sumNat (bump k h) = sumNat h + 1 := by
  induction h with
  | nil => rfl
  | cons p tl ih =>
    obtain ⟨k2, c⟩ := p
    rw [bump]
    by_cases he : pyEqKey k k2
    · rw [if_pos he]
      simp [sumNat]
      omega
    · rw [if_neg he]
      simp [sumNat, ih]
      omega

/-- The count field of an annotated action entry. -/
lemma pySubscriptS_annotate_count (a : PyVal) (c : Nat) :
    pySubscriptS (annotateAction a c) "count" = .ok (.int c) := by
  rw [annotateAction]
  rcases lunaLookup a with _ | d <;> rfl

/-- The summed counts of the annotated histogram equal the histogram total. -/
lemma sumCountsD_annotate (h : List (PyVal × Nat)) :
    sumCountsD (PyDict.ofEntries (actionSummaryEntries h)) = (sumNat h : Int) := by
  induction h with
  | nil => rfl
  | cons p tl ih =>
    obtain ⟨a, c⟩ := p
    simp only [actionSummaryEntries, List.map_cons, PyDict.ofEntries, sumCountsD] at ih ⊢
    rw [ih]
    have hc : countOfEntry (annotateAction a c) = (c : Int) := by
      rw [annotateAction]
      rcases lunaLookup a with _ | d <;> rfl
    rw [hc]
    simp only [sumNat]
    push_cast
    ring

/-- Whether a value is a Python string. -/
def isStrV : PyVal → Bool
  | .str _ => true
  | _ => false

/-- A well-formed audit record in the sense of the data model: a JSON object
whose action, status and source fields (when present) are strings and whose
time field is a string or falsy.  Extra fields stay opaque. -/
def goodRecordB : PyVal → Bool
  | .dict fs =>
    isStrV (fs.getD "action" (.str "UNKNOWN"))
    && isStrV (fs.getD "status" (.str "UNKNOWN"))
    && isStrV (fs.getD "source" (.str "UNKNOWN"))
    && (!pyTruthy (fs.getD "time" .none) || isStrV (fs.getD "time" .none))
  | _ => false

/-- The earliest/latest slots hold either the initial None or a string. -/
def timeOkV (v : PyVal) : Prop :=
  v = .none ∨ ∃ s, v = .str s

/-- Invariant of the aggregation state over well-formed records. -/
def stGood (st : AnaSt) : Prop :=
  (∀ p ∈ st.actions, isStrV p.1 = true)
  ∧ (∀ p ∈ st.statuses, isStrV p.1 = true)
  ∧ (∀ p ∈ st.sources, isStrV p.1 = true)
  ∧ timeOkV st.earliest ∧ timeOkV st.latest

/-- String values are hashable. -/
lemma isHashable_of_isStrV (v : PyVal) (h : isStrV v = true) :
    isHashable v = true := by
  cases v <;> simp_all [isStrV, isHashable]

/-- String values are shaped .str. -/
lemma isStrV_exists (v : PyVal) (h : isStrV v = true) : ∃ s, v = .str s := by
  cases v <;> simp_all [isStrV]

/-- Bumping with a string key preserves all-string keys. -/
lemma bump_keys (k : PyVal) (h : List (PyVal × Nat)) (hk : isStrV k = true)
    (hh : ∀ p ∈ h, isStrV p.1 = true) :
    ∀ p ∈ bump k h, isStrV p.1 = true := by
  induction h with
  | nil =>
    intro p hp
    simp only [bump, List.mem_singleton] at hp
    subst hp
    exact hk
  | cons q tl ih =>
    obtain ⟨k2, c⟩ := q
    intro p hp
    rw [bump] at hp
    by_cases he : pyEqKey k k2
    · rw [if_pos he] at hp
      rcases List.mem_cons.mp hp with h1 | h2
      · subst h1
        exact hh (k2, c) (List.mem_cons_self _ _)
      · exact hh p (List.mem_cons_of_mem _ h2)
    · rw [if_neg he] at hp
      rcases List.mem_cons.mp hp with h1 | h2
      · subst h1
        exact hh (k2, c) (List.mem_cons_self _ _)
      · exact ih (fun q hq => hh q (List.mem_cons_of_mem _ hq)) p h2

/-- Every successful analyzer step bumps the action histogram exactly once. -/
lemma stepLog_actions (st : AnaSt) (log : PyVal) (st2 : AnaSt)
    (h : stepLog st log = .ok st2) :
    ∃ a, st2.actions = bump a st.actions := by
  cases log with
  | str s => exact absurd h (by simp [stepLog])
  | int n => exact absurd h (by simp [stepLog])
  | bool b => exact absurd h (by simp [stepLog])
  | none => exact absurd h (by simp [stepLog])
  | list xs => exact absurd h (by simp [stepLog])
  | dict fs =>
    simp only [stepLog] at h
    refine ⟨fs.getD "action" (.str "UNKNOWN"), ?_⟩
    split at h
    · exact absurd h (by simp)
    · split at h
      · exact absurd h (by simp)
      · split at h
        · exact absurd h (by simp)
        · split at h
          · split at h
            · exact absurd h (by simp)
            · split at h
              · exact absurd h (by simp)
              · injection h with h2
                subst h2
                rfl
          · injection h with h2
            subst h2
            rfl

/-- A successful run of the loop adds the number of processed records to the
action histogram total. -/
lemma runLoop_sum :
    ∀ (logs : List PyVal) (st st2 : AnaSt), runLoop logs st = .ok st2 →
      sumNat st2.actions = sumNat st.actions + logs.length := by
  intro logs
  induction logs with
  | nil =>
    intro st st2 h
    rw [runLoop] at h
    injection h with h2
    subst h2
    simp
  | cons log rest ih =>
    intro st st2 h
    rw [runLoop] at h
    rcases hs : stepLog st log with e | st3
    · rw [hs] at h
      exact absurd h (by simp)
    · rw [hs] at h
      obtain ⟨a, ha⟩ := stepLog_actions st log st3 hs
      have := ih st3 st2 h
      rw [this, ha, sumNat_bump]
      simp only [List.length_cons]
      omega

/-- A well-formed record never raises in the analyzer step, and preserves
the state invariant while adding one to the action total. -/
lemma stepLog_good (st : AnaSt) (v : PyVal) (hv : goodRecordB v = true)
    (hst : stGood st) :
    ∃ st2, stepLog st v = .ok st2 ∧ stGood st2
      ∧ sumNat st2.actions = sumNat st.actions + 1 := by
  obtain ⟨hka, hks, hkr, hte, htl⟩ := hst
  cases v with
  | str s => simp [goodRecordB] at hv
  | int n => simp [goodRecordB] at hv
  | bool b => simp [goodRecordB] at hv
  | none => simp [goodRecordB] at hv
  | list xs => simp [goodRecordB] at hv
  | dict fs =>
    simp only [goodRecordB, Bool.and_eq_true, Bool.or_eq_true] at hv
    obtain ⟨⟨⟨hva, hvs⟩, hvr⟩, hvt⟩ := hv
    obtain ⟨sa, hsa⟩ := isStrV_exists _ hva
    obtain ⟨ss2, hss2⟩ := isStrV_exists _ hvs
    obtain ⟨sr, hsr⟩ := isStrV_exists _ hvr
    simp only [stepLog, hsa, hss2, hsr]
    rw [if_neg (by simp [isHashable]), if_neg (by simp [isHashable]),
      if_neg (by simp [isHashable])]
    have hgactions : ∀ p ∈ bump (.str sa) st.actions, isStrV p.1 = true :=
      bump_keys _ _ (by simp [isStrV]) hka
    have hgstatuses : ∀ p ∈ bump (.str ss2) st.statuses, isStrV p.1 = true :=
      bump_keys _ _ (by simp [isStrV]) hks
    have hgsources : ∀ p ∈ bump (.str sr) st.sources, isStrV p.1 = true :=
      bump_keys _ _ (by simp [isStrV]) hkr
    by_cases hpt : pyTruthy (fs.getD "time" .none) = true
    case neg =>
      rw [if_neg hpt]
      refine ⟨_, rfl, ⟨hgactions, hgstatuses, hgsources, hte, htl⟩, ?_⟩
      simp [sumNat_bump]
    case pos =>
      rw [if_pos hpt]
      rcases hvt with hvt | hvt
      · rw [hpt] at hvt
        simp at hvt
      · obtain ⟨ts, hts⟩ := isStrV_exists _ hvt
        rw [hts]
        have he2 : ∃ be, (if pyTruthy st.earliest = true
            then pyLt (.str ts) st.earliest else .ok true) = .ok be := by
          rcases hte with he | ⟨es, hes⟩
          · rw [he]
            exact ⟨true, by simp [pyTruthy]⟩
          · rw [hes]
            by_cases hq : pyTruthy (PyVal.str es) = true
            · rw [if_pos hq]
              exact ⟨_, rfl⟩
            · rw [if_neg hq]
              exact ⟨true, rfl⟩
        have hl2 : ∃ bl, (if pyTruthy st.latest = true
            then pyLt st.latest (.str ts) else .ok true) = .ok bl := by
          rcases htl with hl | ⟨ls, hls⟩
          · rw [hl]
            exact ⟨true, by simp [pyTruthy]⟩
          · rw [hls]
            by_cases hq : pyTruthy (PyVal.str ls) = true
            · rw [if_pos hq]
              exact ⟨_, rfl⟩
            · rw [if_neg hq]
              exact ⟨true, rfl⟩
        obtain ⟨be, hbe⟩ := he2
        obtain ⟨bl, hbl⟩ := hl2
        rw [hbe, hbl]
        refine ⟨_, rfl, ⟨hgactions, hgstatuses, hgsources, ?_, ?_⟩, ?_⟩
        · by_cases hb : be = true
          · simp only [hb, if_pos]
            right
            exact ⟨ts, by simp⟩
          · simp only [Bool.not_eq_true] at hb
            simp only [hb]
            simpa [timeOkV] using hte
        · by_cases hb : bl = true
          · simp only [hb, if_pos]
            right
            exact ⟨ts, by simp⟩
          · simp only [Bool.not_eq_true] at hb
            simp only [hb]
            simpa [timeOkV] using htl
        · simp [sumNat_bump]

/-- A run over well-formed records succeeds and counts them. -/
lemma runLoop_good :
    ∀ (logs : List PyVal) (st : AnaSt), (∀ v ∈ logs, goodRecordB v = true) →
      stGood st →
      ∃ st2, runLoop logs st = .ok st2 ∧ stGood st2
        ∧ sumNat st2.actions = sumNat st.actions + logs.length := by
  intro logs
  induction logs with
  | nil =>
    intro st _ hst
    exact ⟨st, rfl, hst, by simp⟩
  | cons v rest ih =>
    intro st hgood hst
    obtain ⟨st3, hstep, hg3, hsum3⟩ :=
      stepLog_good st v (hgood v (List.mem_cons_self _ _)) hst
    obtain ⟨st2, hrun, hg2, hsum2⟩ :=
      ih st3 (fun w hw => hgood w (List.mem_cons_of_mem _ hw)) hg3
    refine ⟨st2, ?_, hg2, ?_⟩
    · rw [runLoop, hstep]
      exact hrun
    · rw [hsum2, hsum3]
      simp only [List.length_cons]
      omega

/-- Ascending insertion never raises over string keys. -/
lemma insertAscKey_ok (x : PyVal × Nat) :
    ∀ acc, isStrV x.1 = true → (∀ p ∈ acc, isStrV p.1 = true) →
      ∃ r, insertAscKey x acc = .ok r ∧ ∀ p ∈ r, isStrV p.1 = true := by
  intro acc
  induction acc with
  | nil =>
    intro hx _
    refine ⟨[x], rfl, ?_⟩
    intro p hp
    simp only [List.mem_singleton] at hp
    subst hp
    exact hx
  | cons y ys ih =>
    intro hx hacc
    obtain ⟨sx, hsx⟩ := isStrV_exists _ hx
    obtain ⟨sy, hsy⟩ := isStrV_exists _ (hacc y (List.mem_cons_self _ _))
    have hlt : pyLt x.1 y.1 = .ok (strLtB sx.data sy.data) := by
      rw [hsx, hsy]
      rfl
    cases hb : strLtB sx.data sy.data with
    | true =>
      rw [hb] at hlt
      rw [insertAscKey, hlt]
      refine ⟨x :: y :: ys, rfl, ?_⟩
      intro p hp
      rcases List.mem_cons.mp hp with h1 | h2
      · subst h1
        exact hx
      · exact hacc p h2
    | false =>
      rw [hb] at hlt
      obtain ⟨r, hr, hkeys⟩ := ih hx (fun q hq => hacc q (List.mem_cons_of_mem _ hq))
      rw [insertAscKey, hlt, hr]
      refine ⟨y :: r, rfl, ?_⟩
      intro p hp
      rcases List.mem_cons.mp hp with h1 | h2
      · rw [h1]
        exact hacc y (List.mem_cons_self _ _)
      · exact hkeys p h2

/-- The items sort of a string-keyed histogram never raises. -/
lemma sortPairsByKey_ok (l : List (PyVal × Nat)) (hl : ∀ p ∈ l, isStrV p.1 = true) :
    ∃ r, sortPairsByKey l = .ok r := by
  suffices h : ∀ (l2 acc : List (PyVal × Nat)), (∀ p ∈ l2, isStrV p.1 = true) →
      (∀ p ∈ acc, isStrV p.1 = true) →
      ∃ r, sortPairsByKeyAux l2 acc = .ok r by
    exact h l [] hl (by intro p hp; simp at hp)
  intro l2
  induction l2 with
  | nil =>
    intro acc _ _
    exact ⟨acc, rfl⟩
  | cons x xs ih =>
    intro acc hl2 hacc
    obtain ⟨r, hr, hkeys⟩ := insertAscKey_ok x acc
      (hl2 x (List.mem_cons_self _ _)) hacc
    obtain ⟨r2, hr2⟩ := ih r (fun q hq => hl2 q (List.mem_cons_of_mem _ hq)) hkeys
    rw [sortPairsByKeyAux, hr]
    exact ⟨r2, hr2⟩

/-- Entries whose details carry an int count. -/
def countsOk (l : List (PyVal × PyVal)) : Prop :=
  ∀ p ∈ l, ∃ c : Nat, pySubscriptS p.2 "count" = .ok (.int c)

/-- Descending insertion by count never raises over counted entries. -/
lemma insertDescBy_count_ok (x : PyVal × PyVal) :
    ∀ acc, countsOk [x] → countsOk acc →
      ∃ r, insertDescBy (fun p => pySubscriptS p.2 "count") x acc = .ok r
        ∧ countsOk r := by
  intro acc
  induction acc with
  | nil =>
    intro hx _
    exact ⟨[x], rfl, hx⟩
  | cons y ys ih =>
    intro hx hacc
    obtain ⟨cx, hcx⟩ := hx x (List.mem_singleton.mpr rfl)
    obtain ⟨cy, hcy⟩ := hacc y (List.mem_cons_self _ _)
    have hlt : pyLt (.int cy) (.int cx) = .ok (decide ((cy : Int) < (cx : Int))) := rfl
    cases hb : decide ((cy : Int) < (cx : Int)) with
    | true =>
      rw [hb] at hlt
      rw [insertDescBy]
      simp only [hcy, hcx, hlt]
      refine ⟨x :: y :: ys, rfl, ?_⟩
      intro p hp
      rcases List.mem_cons.mp hp with h1 | h2
      · rw [h1]
        exact ⟨cx, hcx⟩
      · exact hacc p h2
    | false =>
      rw [hb] at hlt
      obtain ⟨r, hr, hcr⟩ := ih hx (fun q hq => hacc q (List.mem_cons_of_mem _ hq))
      rw [insertDescBy]
      simp only [hcy, hcx, hlt, hr]
      refine ⟨y :: r, rfl, ?_⟩
      intro p hp
      rcases List.mem_cons.mp hp with h1 | h2
      · rw [h1]
        exact ⟨cy, hcy⟩
      · exact hcr p h2

/-- The descending count sort of counted entries never raises. -/
lemma sortDescBy_count_ok (l : List (PyVal × PyVal)) (hl : countsOk l) :
    ∃ r, sortDescBy (fun p => pySubscriptS p.2 "count") l = .ok r := by
  suffices h : ∀ (l2 acc : List (PyVal × PyVal)), countsOk l2 → countsOk acc →
      ∃ r, sortDescByAux (fun p => pySubscriptS p.2 "count") l2 acc = .ok r by
    exact h l [] hl (by intro p hp; simp at hp)
  intro l2
  induction l2 with
  | nil =>
    intro acc _ _
    exact ⟨acc, rfl⟩
  | cons x xs ih =>
    intro acc hl2 hacc
    obtain ⟨r, hr, hcr⟩ := insertDescBy_count_ok x acc
      (by
        intro p hp
        simp only [List.mem_singleton] at hp
        rw [hp]
        exact hl2 x (List.mem_cons_self _ _)) hacc
    obtain ⟨r2, hr2⟩ := ih r (fun q hq => hl2 q (List.mem_cons_of_mem _ hq)) hcr
    rw [sortDescByAux, hr]
    exact ⟨r2, hr2⟩

/-- The annotated histogram always carries int counts. -/
lemma actionSummaryEntries_countsOk (h : List (PyVal × Nat)) :
    countsOk (actionSummaryEntries h) := by
  intro p hp
  simp only [actionSummaryEntries, List.mem_map] at hp
  obtain ⟨⟨a, c⟩, _, heq⟩ := hp
  refine ⟨c, ?_⟩
  rw [← heq]
  exact pySubscriptS_annotate_count a c

/-- The total_logs of a built summary is the record count. -/
lemma totalLogsOf_buildSummary (logs : List PyVal) (st : AnaSt)
    (sa : List (PyVal × PyVal)) (ss srcs : List (PyVal × Nat)) :
    totalLogsOf (buildSummary logs st sa ss srcs) = (logs.length : Int) := rfl

/-- A nonempty well-formed record list analyzes without error, with
total_logs its length. -/
lemma analyzeCore_good (logs : List PyVal) (hne : logs ≠ [])
    (hgood : ∀ v ∈ logs, goodRecordB v = true) :
    ∃ d, analyzeCore logs = .ok d ∧ totalLogsOf d = (logs.length : Int)
      ∧ d.hasKey "error" = false := by
  obtain ⟨st2, hrun, hg2, hsum⟩ := runLoop_good logs ⟨[], [], [], .none, .none⟩ hgood
    (by
      refine ⟨?_, ?_, ?_, Or.inl rfl, Or.inl rfl⟩ <;>
        (intro p hp; simp at hp))
  obtain ⟨sa, hsa⟩ := sortDescBy_count_ok _ (actionSummaryEntries_countsOk st2.actions)
  obtain ⟨ss, hss⟩ := sortPairsByKey_ok st2.statuses hg2.2.1
  obtain ⟨srcs, hsrc⟩ := sortPairsByKey_ok st2.sources hg2.2.2.1
  refine ⟨buildSummary logs st2 sa ss srcs, ?_, rfl, rfl⟩
  rw [analyzeCore, if_neg (by simp [List.isEmpty_iff, hne])]
  simp only [hrun, hsa, hss, hsrc]

/-- C4: the histogram totals invariant.  First, when every non-blank line
parses, the per-action counts of the result sum to total_logs.  Second,
inserting exactly one malformed line into a well-formed record file yields
total_logs equal to the number of well-formed records (one less than the
would-be all-well-formed count of the modified file), with no error entry in
the result, and exactly one less than the same file with the malformed line
replaced by a record. -/
theorem analyzer_totals :
    (∀ lines : List SrcLine, (∀ l ∈ lines, l ≠ SrcLine.malformed) →
       sumCountsOf (analyzeAuditLogs lines) = totalLogsOf (analyzeAuditLogs lines))
  ∧ (∀ xs ys : List SrcLine,
       (∀ v ∈ parsedRecords xs ++ parsedRecords ys, goodRecordB v = true) →
       totalLogsOf (analyzeAuditLogs (xs ++ SrcLine.malformed :: ys))
           = (((parsedRecords xs).length + (parsedRecords ys).length : Nat) : Int)
       ∧ (analyzeAuditLogs (xs ++ SrcLine.malformed :: ys)).hasKey "error" = false
       ∧ ∀ v, goodRecordB v = true →
           totalLogsOf (analyzeAuditLogs (xs ++ SrcLine.record v :: ys))
             = totalLogsOf (analyzeAuditLogs (xs ++ SrcLine.malformed :: ys)) + 1) := by
  constructor
  · intro lines _h
    rw [analyzeAuditLogs]
    rcases hcore : analyzeCore (parsedRecords lines) with e | d
    · rfl
    · rw [analyzeCore] at hcore
      by_cases hemp : (parsedRecords lines).isEmpty
      · rw [if_pos hemp] at hcore
        cases hcore
        rfl
      · rw [if_neg hemp] at hcore
        rcases hrun : runLoop (parsedRecords lines) ⟨[], [], [], .none, .none⟩ with e2 | st
        · simp only [hrun] at hcore
          simp at hcore
        · simp only [hrun] at hcore
          rcases hsa : sortDescBy (fun p => pySubscriptS p.2 "count")
              (actionSummaryEntries st.actions) with e3 | sa
          · simp only [hsa] at hcore
            simp at hcore
          · simp only [hsa] at hcore
            rcases hss : sortPairsByKey st.statuses with e4 | ss
            · simp only [hss] at hcore
              simp at hcore
            · simp only [hss] at hcore
              rcases hsrc : sortPairsByKey st.sources with e5 | srcs
              · simp only [hsrc] at hcore
                simp at hcore
              · simp only [hsrc, Except.ok.injEq] at hcore
                subst hcore
                have h1 : sumCountsOf (buildSummary (parsedRecords lines) st sa ss srcs)
                    = sumCountsD (PyDict.ofEntries (actionSummaryEntries st.actions)) := by
                  rw [sumCountsOf, allActionsOf_buildSummary]
                rw [h1, sumCountsD_annotate, totalLogsOf_buildSummary]
                have h2 := runLoop_sum (parsedRecords lines) _ st hrun
                simp only [sumNat] at h2
                rw [h2]
                push_cast
                ring
  · intro xs ys hgood
    have hsplit : parsedRecords (xs ++ SrcLine.malformed :: ys)
        = parsedRecords xs ++ parsedRecords ys := by
      simp [parsedRecords, List.filterMap_append, List.filterMap_cons]
    by_cases hne : parsedRecords xs ++ parsedRecords ys = []
    case pos =>
      obtain ⟨hx0, hy0⟩ := List.append_eq_nil.mp hne
      have h0 : analyzeAuditLogs (xs ++ SrcLine.malformed :: ys) = noLogsDict := by
        rw [analyzeAuditLogs, hsplit, hne]
        rfl
      refine ⟨?_, ?_, ?_⟩
      · rw [h0, hx0, hy0]
        rfl
      · rw [h0]
        rfl
      · intro v hv
        have hsplit2 : parsedRecords (xs ++ SrcLine.record v :: ys)
            = parsedRecords xs ++ v :: parsedRecords ys := by
          simp [parsedRecords, List.filterMap_append, List.filterMap_cons]
        have hgood2 : ∀ w ∈ parsedRecords xs ++ v :: parsedRecords ys,
            goodRecordB w = true := by
          intro w hw
          rw [hx0, hy0] at hw
          simp only [List.nil_append, List.mem_singleton] at hw
          rw [hw]
          exact hv
        obtain ⟨d2, hd2, htot2, _⟩ := analyzeCore_good _ (by simp) hgood2
        rw [analyzeAuditLogs, hsplit2]
        simp only [hd2]
        rw [htot2, h0, hx0, hy0]
        rfl
    case neg =>
      obtain ⟨d, hd, htot, herr⟩ := analyzeCore_good _ hne hgood
      have ha : analyzeAuditLogs (xs ++ SrcLine.malformed :: ys) = d := by
        rw [analyzeAuditLogs, hsplit]
        simp only [hd]
      refine ⟨?_, ?_, ?_⟩
      · rw [ha, htot]
        simp [List.length_append]
      · rw [ha]
        exact herr
      · intro v hv
        have hsplit2 : parsedRecords (xs ++ SrcLine.record v :: ys)
            = parsedRecords xs ++ v :: parsedRecords ys := by
          simp [parsedRecords, List.filterMap_append, List.filterMap_cons]
        have hgood2 : ∀ w ∈ parsedRecords xs ++ v :: parsedRecords ys,
            goodRecordB w = true := by
          intro w hw
          rcases List.mem_append.mp hw with h1 | h2
          · exact hgood w (List.mem_append.mpr (Or.inl h1))
          · rcases List.mem_cons.mp h2 with h3 | h4
            · rw [h3]
              exact hv
            · exact hgood w (List.mem_append.mpr (Or.inr h4))
        obtain ⟨d2, hd2, htot2, _⟩ := analyzeCore_good _ (by simp) hgood2
        rw [analyzeAuditLogs, hsplit2]
        simp only [hd2]
        rw [htot2, ha, htot]
        simp [List.length_append]
        ring

/-- Witness for C4: a two-record file with one malformed line injected. -/
theorem analyzer_totals_witness :
    sumCountsOf (analyzeAuditLogs
        [fixtureRecord "2025-04-01T01:00:00Z" "Create Key" "success", SrcLine.blank])
      = totalLogsOf (analyzeAuditLogs
        [fixtureRecord "2025-04-01T01:00:00Z" "Create Key" "success", SrcLine.blank])
  ∧ totalLogsOf (analyzeAuditLogs
        [fixtureRecord "2025-04-01T01:00:00Z" "Create Key" "success",
         SrcLine.malformed,
         fixtureRecord "2025-04-02T01:00:00Z" "Delete User" "failure"])
      = 2 := by
  constructor
  · exact analyzer_totals.1
      [fixtureRecord "2025-04-01T01:00:00Z" "Create Key" "success", SrcLine.blank]
      (by
        intro l hl
        rcases List.mem_cons.mp hl with h1 | h2
        · rw [h1]
          intro hx
          exact SrcLine.noConfusion hx
        · simp only [List.mem_singleton] at h2
          rw [h2]
          intro hx
          exact SrcLine.noConfusion hx)
  · exact (analyzer_totals.2
      [fixtureRecord "2025-04-01T01:00:00Z" "Create Key" "success"]
      [fixtureRecord "2025-04-02T01:00:00Z" "Delete User" "failure"]
      (by decide)).1
